import Mathlib

/-
Shallow embedding of the x86 CPU capability-policy subsystem: the Policy
Record data model, the CPUID and MSR serialisers/deserialisers, the range
sanitizer and the compatibility oracle, together with proofs of the
behaviour pinned down by the unit tests in
src/xen/arch/x86/mm/shadow/none.c.  The implementation bodies of the
library operations are not part of the shown sources (only their test
harness is), so each operation is modelled from the specification, with
every concrete behaviour additionally cross-checked against the expected
values hard-coded in the test harness.
-/

set_option linter.unusedVariables false

/-- One CPUID leaf/subleaf worth of output registers (eax, ebx, ecx, edx),
each a 32-bit value represented as a natural number. -/
structure CpuidLeafRegs where
  a : Nat
  b : Nat
  c : Nat
  d : Nat
deriving DecidableEq

/-- The all-zero register block. -/
def zeroRegs : CpuidLeafRegs := ⟨0, 0, 0, 0⟩

/-- Fixed capacity of the basic leaf family (leaves 0 .. 0xd). -/
abbrev CPUID_GUEST_NR_BASIC : Nat := 14

/-- Fixed capacity of the cache (leaf 4) subleaf array. -/
abbrev CPUID_GUEST_NR_CACHE : Nat := 6

/-- Fixed capacity of the feature (leaf 7) subleaf array. -/
abbrev CPUID_GUEST_NR_FEAT : Nat := 3

/-- Fixed capacity of the topology (leaf 0xb) subleaf array. -/
abbrev CPUID_GUEST_NR_TOPO : Nat := 2

/-- Fixed capacity of the xstate (leaf 0xd) subleaf array. -/
abbrev CPUID_GUEST_NR_XSTATE : Nat := 63

/-- Fixed capacity of the extended leaf family (leaves 0x80000000 ..). -/
abbrev CPUID_GUEST_NR_EXTD : Nat := 34

/-- Marker subleaf value used on the wire for leaves that have no
subleaves (the 32-bit value ~0u). -/
def XEN_CPUID_NO_SUBLEAF : Nat := 4294967295

/-- Policy Record: the in-memory structured representation of one CPU's
capability set.  Each CPUID leaf family is kept as its raw register
array; the declared bounds (max_leaf, max_subleaf, subleaf type tags,
xstate masks) overlay fixed positions of those arrays, exactly as the
union layout of struct cpu_policy prescribes, and are exposed below as
derived accessors.  The two MSR-backed scalars are kept separately. -/
@[ext]
structure CpuPolicy where
  basicRaw : Fin CPUID_GUEST_NR_BASIC → CpuidLeafRegs
  cacheRaw : Fin CPUID_GUEST_NR_CACHE → CpuidLeafRegs
  featRaw : Fin CPUID_GUEST_NR_FEAT → CpuidLeafRegs
  topoRaw : Fin CPUID_GUEST_NR_TOPO → CpuidLeafRegs
  xstateRaw : Fin CPUID_GUEST_NR_XSTATE → CpuidLeafRegs
  extdRaw : Fin CPUID_GUEST_NR_EXTD → CpuidLeafRegs
  hv_limit : Nat
  hv2_limit : Nat
  platform_info_raw : Nat
  arch_caps_raw : Nat

instance : DecidableEq CpuPolicy :=
  fun p q =>
    decidable_of_iff
      (p.basicRaw = q.basicRaw ∧ p.cacheRaw = q.cacheRaw ∧ p.featRaw = q.featRaw ∧
        p.topoRaw = q.topoRaw ∧ p.xstateRaw = q.xstateRaw ∧ p.extdRaw = q.extdRaw ∧
        p.hv_limit = q.hv_limit ∧ p.hv2_limit = q.hv2_limit ∧
        p.platform_info_raw = q.platform_info_raw ∧ p.arch_caps_raw = q.arch_caps_raw)
      (by cases p; cases q; simp)

/-- Family array read at a natural index, returning zero out of range
(all in-range uses stay below the fixed capacity). -/
def famGet {n : Nat} (f : Fin n → CpuidLeafRegs) (i : Nat) : CpuidLeafRegs :=
  if h : i < n then f ⟨i, h⟩ else zeroRegs

/-- Family array functional update at a natural index. -/
def famSet {n : Nat} (f : Fin n → CpuidLeafRegs) (i : Nat) (v : CpuidLeafRegs) :
    Fin n → CpuidLeafRegs :=
  fun j => if j.val = i then v else f j

/-- Declared highest basic leaf: overlays eax of basic leaf 0. -/
def basic_max_leaf (p : CpuPolicy) : Nat := (famGet p.basicRaw 0).a

/-- Cache subleaf type tag: bits 0..4 of eax of the cache subleaf. -/
def cacheType (p : CpuPolicy) (i : Nat) : Nat := (famGet p.cacheRaw i).a % 32

/-- Declared highest feature subleaf: overlays eax of feature subleaf 0. -/
def feat_max_subleaf (p : CpuPolicy) : Nat := (famGet p.featRaw 0).a

/-- Topology subleaf type tag: bits 8..15 of ecx of the topo subleaf. -/
def topoType (p : CpuPolicy) (i : Nat) : Nat := ((famGet p.topoRaw i).c / 256) % 256

/-- Low word of the xcr0 mask: eax of xstate subleaf 0. -/
def xcr0_low (p : CpuPolicy) : Nat := (famGet p.xstateRaw 0).a

/-- High word of the xcr0 mask: edx of xstate subleaf 0. -/
def xcr0_high (p : CpuPolicy) : Nat := (famGet p.xstateRaw 0).d

/-- Low word of the xss mask: ecx of xstate subleaf 1. -/
def xss_low (p : CpuPolicy) : Nat := (famGet p.xstateRaw 1).c

/-- High word of the xss mask: edx of xstate subleaf 1. -/
def xss_high (p : CpuPolicy) : Nat := (famGet p.xstateRaw 1).d

/-- Combined 64-bit xstate enablement mask (xcr0 | xss). -/
def xstates (p : CpuPolicy) : Nat :=
  ((xcr0_high p ||| xss_high p) <<< 32) ||| xcr0_low p ||| xss_low p

/-- Declared highest extended leaf: overlays eax of extended leaf 0. -/
def extd_max_leaf (p : CpuPolicy) : Nat := (famGet p.extdRaw 0).a

/-- The Policy Record with every field zero. -/
def zeroPolicy : CpuPolicy :=
  ⟨fun _ => zeroRegs, fun _ => zeroRegs, fun _ => zeroRegs, fun _ => zeroRegs,
   fun _ => zeroRegs, fun _ => zeroRegs, 0, 0, 0, 0⟩

/-- Index of the first subleaf whose type tag is zero, scanning from a
given start index with explicit fuel (structural recursion so that all
results compute by reduction). -/
def firstZeroAux (t : Nat → Nat) : Nat → Nat → Nat
  | 0, i => i
  | fuel + 1, i => if t i = 0 then i else firstZeroAux t fuel (i + 1)

/-- Index of the first subleaf (below cap) whose type tag is zero, or cap
itself when every subleaf has a nonzero type. -/
def firstZero (t : Nat → Nat) (cap : Nat) : Nat := firstZeroAux t cap 0

/-- Number of binary digits of a natural number, with explicit fuel. -/
def bitlenFuel : Nat → Nat → Nat
  | 0, _ => 0
  | fuel + 1, n => if n = 0 then 0 else bitlenFuel fuel (n / 2) + 1

/-- Number of binary digits of a natural number (position of the highest
set bit, plus one; zero for zero). -/
def bitlen (n : Nat) : Nat := bitlenFuel n n

/-- One CPUID wire leaf record: leaf and subleaf indices plus the four
32-bit register results. -/
structure WireLeaf where
  leaf : Nat
  subleaf : Nat
  a : Nat
  b : Nat
  c : Nat
  d : Nat
deriving DecidableEq

/-- Build a wire leaf record from a register block. -/
def wireOf (l s : Nat) (r : CpuidLeafRegs) : WireLeaf := ⟨l, s, r.a, r.b, r.c, r.d⟩

/-- Number of cache subleaves emitted: subleaves are emitted from 0 and
emission stops at the first subleaf whose type tag is 0 (that
terminating subleaf itself is still emitted, as fixed by the expected
counts in test_cpuid_serialise_success). -/
def cacheNr (p : CpuPolicy) : Nat :=
  min (firstZero (cacheType p) CPUID_GUEST_NR_CACHE + 1) CPUID_GUEST_NR_CACHE

/-- Number of feature subleaves emitted: 0 .. max_subleaf inclusive,
clamped to the fixed capacity. -/
def featNr (p : CpuPolicy) : Nat :=
  min (feat_max_subleaf p) (CPUID_GUEST_NR_FEAT - 1) + 1

/-- Number of topology subleaves emitted: same stopping rule as cache. -/
def topoNr (p : CpuPolicy) : Nat :=
  min (firstZero (topoType p) CPUID_GUEST_NR_TOPO + 1) CPUID_GUEST_NR_TOPO

/-- Number of xstate subleaves emitted: subleaves 0 and 1 always, then
every position up to the highest set bit of the combined mask (gaps
between set bits still produce records), clamped to capacity. -/
def xstateNr (p : CpuPolicy) : Nat :=
  min (max 2 (bitlen (xstates p))) CPUID_GUEST_NR_XSTATE

/-- Number of basic leaves emitted: 0 .. max_leaf inclusive, clamped. -/
def basicNrLeaves (p : CpuPolicy) : Nat :=
  min (basic_max_leaf p) (CPUID_GUEST_NR_BASIC - 1) + 1

/-- Number of extended leaves emitted: 0 .. (extd max_leaf low half)
inclusive, clamped. -/
def extdNrLeaves (p : CpuPolicy) : Nat :=
  min (extd_max_leaf p &&& 65535) (CPUID_GUEST_NR_EXTD - 1) + 1

/-- Modelled from the spec: the per-family emission block of the CPUID
serialiser (x86_cpuid_copy_to_buffer, whose implementation is not among
the shown sources) for one basic leaf.  Leaves 4/7/0xb/0xd emit their
family subleaf runs; every other basic leaf emits one record carrying
the no-subleaf marker. -/
def basicBlock (p : CpuPolicy) (l : Nat) : List WireLeaf :=
  if l = 4 then (List.range (cacheNr p)).map (fun s => wireOf 4 s (famGet p.cacheRaw s))
  else if l = 7 then (List.range (featNr p)).map (fun s => wireOf 7 s (famGet p.featRaw s))
  else if l = 11 then (List.range (topoNr p)).map (fun s => wireOf 11 s (famGet p.topoRaw s))
  else if l = 13 then (List.range (xstateNr p)).map (fun s => wireOf 13 s (famGet p.xstateRaw s))
  else [wireOf l XEN_CPUID_NO_SUBLEAF (famGet p.basicRaw l)]

/-- Modelled from the spec: the ordered wire leaf sequence produced by the
CPUID serialiser (x86_cpuid_copy_to_buffer, implementation not among the
shown sources): the basic block for leaves 0 .. max_leaf, then the two
hypervisor limit leaves, then the extended leaves. -/
def serialiseLeaves (p : CpuPolicy) : List WireLeaf :=
  (List.range (basicNrLeaves p)).flatMap (basicBlock p)
    ++ [wireOf 1073741824 XEN_CPUID_NO_SUBLEAF ⟨p.hv_limit, 0, 0, 0⟩,
        wireOf 1073742080 XEN_CPUID_NO_SUBLEAF ⟨p.hv2_limit, 0, 0, 0⟩]
    ++ (List.range (extdNrLeaves p)).map
        (fun l => wireOf (2147483648 + l) XEN_CPUID_NO_SUBLEAF (famGet p.extdRaw l))

/-- Modelled from the spec: x86_cpuid_copy_to_buffer with its caller
supplied capacity; on insufficient capacity the call fails with -ENOBUFS
and writes nothing. -/
def x86_cpuid_copy_to_buffer (p : CpuPolicy) (cap : Nat) : Except Int (List WireLeaf) :=
  if (serialiseLeaves p).length ≤ cap then Except.ok (serialiseLeaves p)
  else Except.error (-105)

/-- Structural validity of one wire leaf record: the leaf must belong to
the basic, hypervisor or extended family; subleaved families bound the
subleaf by their fixed capacity, every other leaf requires the
no-subleaf marker. -/
def validLeaf (e : WireLeaf) : Prop :=
  if e.leaf < CPUID_GUEST_NR_BASIC then
    if e.leaf = 4 then e.subleaf < CPUID_GUEST_NR_CACHE
    else if e.leaf = 7 then e.subleaf < CPUID_GUEST_NR_FEAT
    else if e.leaf = 11 then e.subleaf < CPUID_GUEST_NR_TOPO
    else if e.leaf = 13 then e.subleaf < CPUID_GUEST_NR_XSTATE
    else e.subleaf = XEN_CPUID_NO_SUBLEAF
  else if e.leaf = 1073741824 ∨ e.leaf = 1073742080 then
    e.subleaf = XEN_CPUID_NO_SUBLEAF
  else if 2147483648 ≤ e.leaf ∧ e.leaf < 2147483648 + CPUID_GUEST_NR_EXTD then
    e.subleaf = XEN_CPUID_NO_SUBLEAF
  else False

instance validLeaf.instDecidable : DecidablePred validLeaf := by
  intro e
  unfold validLeaf
  infer_instance

/-- First structurally invalid entry of a wire leaf sequence, with its
(leaf, subleaf) pair, if any. -/
def findBadLeaf : List WireLeaf → Option (Nat × Nat)
  | [] => none
  | e :: rest => if validLeaf e then findBadLeaf rest else some (e.leaf, e.subleaf)

/-- Modelled from the spec: the single-entry commit step of the CPUID
deserialiser, copying one validated wire record into its family slot. -/
def applyLeafWrite (q : CpuPolicy) (e : WireLeaf) : CpuPolicy :=
  if e.leaf < CPUID_GUEST_NR_BASIC then
    if e.leaf = 4 then { q with cacheRaw := famSet q.cacheRaw e.subleaf ⟨e.a, e.b, e.c, e.d⟩ }
    else if e.leaf = 7 then { q with featRaw := famSet q.featRaw e.subleaf ⟨e.a, e.b, e.c, e.d⟩ }
    else if e.leaf = 11 then { q with topoRaw := famSet q.topoRaw e.subleaf ⟨e.a, e.b, e.c, e.d⟩ }
    else if e.leaf = 13 then { q with xstateRaw := famSet q.xstateRaw e.subleaf ⟨e.a, e.b, e.c, e.d⟩ }
    else { q with basicRaw := famSet q.basicRaw e.leaf ⟨e.a, e.b, e.c, e.d⟩ }
  else if e.leaf = 1073741824 then { q with hv_limit := e.a }
  else if e.leaf = 1073742080 then { q with hv2_limit := e.a }
  else if 2147483648 ≤ e.leaf ∧ e.leaf < 2147483648 + CPUID_GUEST_NR_EXTD then
    { q with extdRaw := famSet q.extdRaw (e.leaf &&& 65535) ⟨e.a, e.b, e.c, e.d⟩ }
  else q

/-- Result of a CPUID deserialisation call: return code, error leaf and
subleaf coordinates (initialised to the ~0u marker and set only on
failure), and the destination record (absent for validate-only calls). -/
structure CpuidDeserialiseResult where
  rc : Int
  err_leaf : Nat
  err_subleaf : Nat
  dest : Option CpuPolicy
deriving DecidableEq

/-- Modelled from the spec: the CPUID deserialiser
(x86_cpuid_copy_from_buffer, implementation not among the shown
sources).  Every entry is validated before any is written; on the first
invalid entry the call fails with -ERANGE reporting that entry's (leaf,
subleaf) pair and leaves the destination untouched; a null destination
makes the call validate-only. -/
def x86_cpuid_copy_from_buffer (dst : Option CpuPolicy) (entries : List WireLeaf) :
    CpuidDeserialiseResult :=
  match findBadLeaf entries with
  | some ls => ⟨-34, ls.1, ls.2, dst⟩
  | none => ⟨0, XEN_CPUID_NO_SUBLEAF, XEN_CPUID_NO_SUBLEAF,
             dst.map (fun p => entries.foldl applyLeafWrite p)⟩

/-- One MSR wire entry: index, reserved flags, 64-bit value. -/
structure MsrEntry where
  idx : Nat
  flags : Nat
  val : Nat
deriving DecidableEq

/-- Fixed number of MSR entries a serialise call emits (the allow-list
has exactly two indices: 0xce and 0x10a). -/
def MSR_MAX_SERIALISED_ENTRIES : Nat := 2

/-- Architectural width in bits of each allow-listed MSR index; indices
off the allow-list yield none. -/
def msrWidth (i : Nat) : Option Nat :=
  if i = 206 then some 32
  else if i = 266 then some 32
  else none

/-- Modelled from the spec: the wire entry list produced by the MSR
serialiser (x86_msr_copy_to_buffer, implementation not among the shown
sources): the MSR-backed fields in fixed ascending index order, one
entry per allow-listed field regardless of value (the expected count in
test_msr_serialise_success is MSR_MAX_SERIALISED_ENTRIES even for the
all-zero record). -/
def serialiseMsrs (p : CpuPolicy) : List MsrEntry :=
  [⟨206, 0, p.platform_info_raw⟩, ⟨266, 0, p.arch_caps_raw⟩]

/-- Modelled from the spec: x86_msr_copy_to_buffer with its caller
supplied capacity; fails with -ENOBUFS, writing nothing, when the
capacity is insufficient. -/
def x86_msr_copy_to_buffer (p : CpuPolicy) (cap : Nat) : Except Int (List MsrEntry) :=
  if MSR_MAX_SERIALISED_ENTRIES ≤ cap then Except.ok (serialiseMsrs p)
  else Except.error (-105)

/-- Error classification for one MSR wire entry, in the order given by
the spec: unknown index yields out-of-range (-ERANGE), a nonzero
reserved flags word yields invalid-argument (-EINVAL), a value wider
than the architectural width of the index yields overflow
(-EOVERFLOW). -/
def msrEntryErr (e : MsrEntry) : Option Int :=
  match msrWidth e.idx with
  | none => some (-34)
  | some w => if e.flags ≠ 0 then some (-22)
              else if 2 ^ w ≤ e.val then some (-75)
              else none

/-- First offending MSR entry of a wire sequence, with its error code and
index, if any. -/
def findBadMsr : List MsrEntry → Option (Int × Nat)
  | [] => none
  | e :: rest =>
    match msrEntryErr e with
    | some c => some (c, e.idx)
    | none => findBadMsr rest

/-- Modelled from the spec: the single-entry commit step of the MSR
deserialiser, writing one validated entry into its backing scalar. -/
def applyMsrWrite (q : CpuPolicy) (e : MsrEntry) : CpuPolicy :=
  if e.idx = 206 then { q with platform_info_raw := e.val }
  else if e.idx = 266 then { q with arch_caps_raw := e.val }
  else q

/-- Result of an MSR deserialisation call: return code, offending index
(the ~0u marker when the call succeeded) and the destination record. -/
structure MsrDeserialiseResult where
  rc : Int
  err_msr : Nat
  dest : Option CpuPolicy
deriving DecidableEq

/-- Modelled from the spec: the MSR deserialiser
(x86_msr_copy_from_buffer, implementation not among the shown sources).
Validation is fully performed before any write; the first offending
entry aborts the call with its error class and exact index, leaving the
destination untouched; a null destination makes the call
validate-only. -/
def x86_msr_copy_from_buffer (dst : Option CpuPolicy) (entries : List MsrEntry) :
    MsrDeserialiseResult :=
  match findBadMsr entries with
  | some ci => ⟨ci.1, ci.2, dst⟩
  | none => ⟨0, 4294967295, dst.map (fun p => entries.foldl applyMsrWrite p)⟩

/-- Three-dimensional error locator of the compatibility oracle. -/
structure CpuPolicyErrors where
  leaf : Nat
  subleaf : Nat
  msr : Nat
deriving DecidableEq

/-- Locator with every dimension set to the ~0u sentinel. -/
def INIT_CPU_POLICY_ERRORS : CpuPolicyErrors := ⟨4294967295, 4294967295, 4294967295⟩

/-- Modelled from the spec: the compatibility oracle
(x86_cpu_policies_are_compatible, implementation not among the shown
sources).  Checks in fixed order, first failure wins: the guest basic
max_leaf must not exceed the host's (locator leaf 0); the guest extended
max_leaf must not exceed the host's (locator leaf 0x80000000); every
platform-info capability bit the guest requires must be offered by the
host (locator msr 0xce).  Success returns 0 with the all-sentinel
locator; failure returns -EINVAL. -/
def x86_cpu_policies_are_compatible (host guest : CpuPolicy) : Int × CpuPolicyErrors :=
  if basic_max_leaf host < basic_max_leaf guest then
    (-22, ⟨0, 4294967295, 4294967295⟩)
  else if extd_max_leaf host < extd_max_leaf guest then
    (-22, ⟨2147483648, 4294967295, 4294967295⟩)
  else if (guest.platform_info_raw % 4294967296) &&&
      ((host.platform_info_raw % 4294967296) ^^^ 4294967295) ≠ 0 then
    (-22, ⟨4294967295, 4294967295, 206⟩)
  else (0, INIT_CPU_POLICY_ERRORS)

/-- Zero every array slot from a given index (inclusive) to the end of
the family array. -/
def zeroFrom {n : Nat} (f : Fin n → CpuidLeafRegs) (first : Nat) : Fin n → CpuidLeafRegs :=
  fun j => if first ≤ j.val then zeroRegs else f j

/-- Modelled from the spec: the range sanitizer
(x86_cpu_policy_clear_out_of_range_leaves, implementation not among the
shown sources).  Basic and extended leaves beyond the declared max_leaf
are zeroed; cache/topo keep subleaves strictly before the first type-0
subleaf, or are zeroed entirely when max_leaf does not reach the family
leaf; feat keeps subleaves 0 .. max_subleaf under the same threshold
rule; xstate keeps subleaves 0 and 1 plus the subleaves whose combined
mask bit is set, again under the threshold rule (per the spec wording:
subleaves 0 and 1 always, additional subleaves only for set bits of the
combined mask).  The threshold behaviour for feat and xstate is pinned
by the marker counts in test_cpuid_out_of_range_clearing. -/
def x86_cpu_policy_clear_out_of_range_leaves (p : CpuPolicy) : CpuPolicy :=
  { p with
    basicRaw := zeroFrom p.basicRaw (basic_max_leaf p + 1),
    cacheRaw :=
      if basic_max_leaf p < 4 then zeroFrom p.cacheRaw 0
      else zeroFrom p.cacheRaw (firstZero (cacheType p) CPUID_GUEST_NR_CACHE),
    featRaw :=
      if basic_max_leaf p < 7 then zeroFrom p.featRaw 0
      else zeroFrom p.featRaw (feat_max_subleaf p + 1),
    topoRaw :=
      if basic_max_leaf p < 11 then zeroFrom p.topoRaw 0
      else zeroFrom p.topoRaw (firstZero (topoType p) CPUID_GUEST_NR_TOPO),
    xstateRaw :=
      if basic_max_leaf p < 13 then fun _ => zeroRegs
      else fun j => if j.val < 2 ∨ Nat.testBit (xstates p) j.val then p.xstateRaw j
                    else zeroRegs,
    extdRaw := zeroFrom p.extdRaw ((extd_max_leaf p &&& 65535) + 1) }

/-- Sortedness check on wire leaf sequences, translated from
leaves_are_sorted in the test harness: adjacent records must strictly
increase in the (leaf, subleaf) lexicographic order. -/
def leaves_are_sorted : List WireLeaf → Bool
  | [] => true
  | [_] => true
  | x :: y :: rest =>
    if y.leaf < x.leaf then false
    else if x.leaf < y.leaf then leaves_are_sorted (y :: rest)
    else if y.subleaf ≤ x.subleaf then false
    else leaves_are_sorted (y :: rest)

/-- Sortedness check on MSR wire sequences, translated from
msrs_are_sorted in the test harness: adjacent indices must not
decrease. -/
def msrs_are_sorted : List MsrEntry → Bool
  | [] => true
  | [_] => true
  | x :: y :: rest =>
    if y.idx < x.idx then false
    else msrs_are_sorted (y :: rest)

/-
Basic facts about the scan and bit-length helpers.
-/

theorem firstZeroAux_le (t : Nat → Nat) : ∀ fuel i, firstZeroAux t fuel i ≤ i + fuel := by
  intro fuel
  induction fuel with
  | zero => intro i; simp [firstZeroAux]
  | succ fuel ih =>
    intro i
    simp only [firstZeroAux]
    split
    · omega
    · have := ih (i + 1)
      omega

theorem firstZeroAux_ge (t : Nat → Nat) : ∀ fuel i, i ≤ firstZeroAux t fuel i := by
  intro fuel
  induction fuel with
  | zero => intro i; simp [firstZeroAux]
  | succ fuel ih =>
    intro i
    simp only [firstZeroAux]
    split
    · omega
    · have := ih (i + 1)
      omega

theorem firstZeroAux_pos (t : Nat → Nat) :
    ∀ fuel i j, i ≤ j → j < firstZeroAux t fuel i → t j ≠ 0 := by
  intro fuel
  induction fuel with
  | zero =>
    intro i j hij hj
    simp [firstZeroAux] at hj
    omega
  | succ fuel ih =>
    intro i j hij hj
    simp only [firstZeroAux] at hj
    by_cases h0 : t i = 0
    · rw [if_pos h0] at hj; omega
    · rw [if_neg h0] at hj
      by_cases hji : j = i
      · rw [hji]; exact h0
      · exact ih (i + 1) j (by omega) hj

theorem firstZeroAux_zero (t : Nat → Nat) :
    ∀ fuel i, firstZeroAux t fuel i < i + fuel → t (firstZeroAux t fuel i) = 0 := by
  intro fuel
  induction fuel with
  | zero => intro i h; simp [firstZeroAux] at h
  | succ fuel ih =>
    intro i h
    simp only [firstZeroAux] at h ⊢
    by_cases h0 : t i = 0
    · rw [if_pos h0]; exact h0
    · rw [if_neg h0] at h ⊢
      exact ih (i + 1) (by omega)

theorem firstZero_le (t : Nat → Nat) (cap : Nat) : firstZero t cap ≤ cap := by
  have := firstZeroAux_le t cap 0
  simpa [firstZero] using this

theorem firstZero_pos (t : Nat → Nat) (cap j : Nat) (h : j < firstZero t cap) : t j ≠ 0 :=
  firstZeroAux_pos t cap 0 j (Nat.zero_le j) h

theorem firstZero_zero (t : Nat → Nat) (cap : Nat) (h : firstZero t cap < cap) :
    t (firstZero t cap) = 0 := by
  have := firstZeroAux_zero t cap 0
  simp only [firstZero] at h ⊢
  exact this (by omega)

theorem firstZero_eq (t : Nat → Nat) (cap m : Nat) (h1 : m ≤ cap)
    (h2 : ∀ j, j < m → t j ≠ 0) (h3 : m < cap → t m = 0) : firstZero t cap = m := by
  rcases Nat.lt_trichotomy (firstZero t cap) m with h | h | h
  · exact absurd (firstZero_zero t cap (by omega)) (h2 _ h)
  · exact h
  · exact absurd (h3 (by have := firstZero_le t cap; omega)) (firstZero_pos t cap m h)

theorem lt_firstZero_iff (t : Nat → Nat) (cap i : Nat) (hi : i < cap) :
    i < firstZero t cap ↔ ∀ j, j ≤ i → t j ≠ 0 := by
  constructor
  · intro h j hj
    exact firstZero_pos t cap j (by omega)
  · intro h
    by_contra hc
    have hF : firstZero t cap ≤ i := by omega
    exact h (firstZero t cap) hF (firstZero_zero t cap (by omega))

theorem bitlenFuel_le_iff : ∀ fuel n k, n ≤ fuel → (bitlenFuel fuel n ≤ k ↔ n < 2 ^ k) := by
  intro fuel
  induction fuel with
  | zero =>
    intro n k hn
    have : n = 0 := by omega
    subst this
    simp [bitlenFuel, Nat.pos_pow_of_pos]
  | succ fuel ih =>
    intro n k hn
    by_cases h0 : n = 0
    · subst h0
      simp [bitlenFuel, Nat.pos_pow_of_pos]
    · simp only [bitlenFuel, if_neg h0]
      cases k with
      | zero =>
        simp only [pow_zero]
        omega
      | succ k =>
        have hdiv : n / 2 ≤ fuel := by omega
        have := ih (n / 2) k hdiv
        have hpow : 2 ^ (k + 1) = 2 * 2 ^ k := by rw [pow_succ]; ring
        omega

theorem bitlen_le_iff (n k : Nat) : bitlen n ≤ k ↔ n < 2 ^ k :=
  bitlenFuel_le_iff n n k (Nat.le_refl n)

theorem lt_bitlen_iff (n i : Nat) : i < bitlen n ↔ 2 ^ i ≤ n := by
  have := bitlen_le_iff n i
  omega

theorem testBit_false_of_bitlen_le (n i : Nat) (h : bitlen n ≤ i) : n.testBit i = false :=
  Nat.testBit_lt_two_pow ((bitlen_le_iff n i).1 h)

theorem testBit_lt_bitlen (n i : Nat) (h : n.testBit i = true) : i < bitlen n := by
  by_contra hc
  rw [testBit_false_of_bitlen_le n i (by omega)] at h
  cases h

/-
Small facts about the array helpers.
-/

theorem famGet_lt {n : Nat} (f : Fin n → CpuidLeafRegs) (i : Nat) (h : i < n) :
    famGet f i = f ⟨i, h⟩ := by
  simp [famGet, h]

theorem zeroFrom_apply {n : Nat} (f : Fin n → CpuidLeafRegs) (k : Nat) (j : Fin n) :
    zeroFrom f k j = if k ≤ j.val then zeroRegs else f j := rfl

theorem zeroFrom_idem {n : Nat} (f : Fin n → CpuidLeafRegs) (k : Nat) :
    zeroFrom (zeroFrom f k) k = zeroFrom f k := by
  funext j
  simp only [zeroFrom]
  split <;> rfl

theorem zeroFrom_zero {n : Nat} (f : Fin n → CpuidLeafRegs) :
    zeroFrom f 0 = fun _ => zeroRegs := by
  funext j
  simp [zeroFrom]

theorem famGet_zeroFrom {n : Nat} (f : Fin n → CpuidLeafRegs) (first i : Nat) (h : i < first) :
    famGet (zeroFrom f first) i = famGet f i := by
  by_cases hn : i < n
  · simp only [famGet, dif_pos hn, zeroFrom_apply]
    rw [if_neg (by omega)]
  · simp only [famGet, dif_neg hn]

theorem famGet_zeroFrom_ge {n : Nat} (f : Fin n → CpuidLeafRegs) (first i : Nat)
    (h : first ≤ i) : famGet (zeroFrom f first) i = zeroRegs := by
  by_cases hn : i < n
  · simp only [famGet, dif_pos hn, zeroFrom_apply]
    rw [if_pos h]
  · simp only [famGet, dif_neg hn]

/-
Projection forms of the range sanitizer, used throughout the proofs.
-/

theorem clear_basicRaw (p : CpuPolicy) :
    (x86_cpu_policy_clear_out_of_range_leaves p).basicRaw =
      zeroFrom p.basicRaw (basic_max_leaf p + 1) := rfl

theorem clear_cacheRaw (p : CpuPolicy) :
    (x86_cpu_policy_clear_out_of_range_leaves p).cacheRaw =
      if basic_max_leaf p < 4 then zeroFrom p.cacheRaw 0
      else zeroFrom p.cacheRaw (firstZero (cacheType p) CPUID_GUEST_NR_CACHE) := rfl

theorem clear_featRaw (p : CpuPolicy) :
    (x86_cpu_policy_clear_out_of_range_leaves p).featRaw =
      if basic_max_leaf p < 7 then zeroFrom p.featRaw 0
      else zeroFrom p.featRaw (feat_max_subleaf p + 1) := rfl

theorem clear_topoRaw (p : CpuPolicy) :
    (x86_cpu_policy_clear_out_of_range_leaves p).topoRaw =
      if basic_max_leaf p < 11 then zeroFrom p.topoRaw 0
      else zeroFrom p.topoRaw (firstZero (topoType p) CPUID_GUEST_NR_TOPO) := rfl

theorem clear_xstateRaw (p : CpuPolicy) :
    (x86_cpu_policy_clear_out_of_range_leaves p).xstateRaw =
      if basic_max_leaf p < 13 then fun _ => zeroRegs
      else fun j => if j.val < 2 ∨ Nat.testBit (xstates p) j.val then p.xstateRaw j
                    else zeroRegs := rfl

theorem clear_extdRaw (p : CpuPolicy) :
    (x86_cpu_policy_clear_out_of_range_leaves p).extdRaw =
      zeroFrom p.extdRaw ((extd_max_leaf p &&& 65535) + 1) := rfl

/-
The declared ranges a Policy Record carries are themselves stored in
array slots the sanitizer always retains, so they survive sanitisation.
-/

theorem basic_max_leaf_clear (p : CpuPolicy) :
    basic_max_leaf (x86_cpu_policy_clear_out_of_range_leaves p) = basic_max_leaf p := by
  unfold basic_max_leaf
  rw [clear_basicRaw, famGet_zeroFrom _ _ _ (by omega)]

theorem extd_max_leaf_clear (p : CpuPolicy) :
    extd_max_leaf (x86_cpu_policy_clear_out_of_range_leaves p) = extd_max_leaf p := by
  unfold extd_max_leaf
  rw [clear_extdRaw, famGet_zeroFrom _ _ _ (by omega)]

theorem feat_max_subleaf_clear (p : CpuPolicy) (h : ¬ basic_max_leaf p < 7) :
    feat_max_subleaf (x86_cpu_policy_clear_out_of_range_leaves p) = feat_max_subleaf p := by
  unfold feat_max_subleaf
  rw [clear_featRaw, if_neg h, famGet_zeroFrom _ _ _ (by omega)]

theorem cacheType_clear (p : CpuPolicy) (h : ¬ basic_max_leaf p < 4) (j : Nat)
    (hj : j < firstZero (cacheType p) CPUID_GUEST_NR_CACHE) :
    cacheType (x86_cpu_policy_clear_out_of_range_leaves p) j = cacheType p j := by
  unfold cacheType
  rw [clear_cacheRaw, if_neg h, famGet_zeroFrom _ _ _ hj]

theorem topoType_clear (p : CpuPolicy) (h : ¬ basic_max_leaf p < 11) (j : Nat)
    (hj : j < firstZero (topoType p) CPUID_GUEST_NR_TOPO) :
    topoType (x86_cpu_policy_clear_out_of_range_leaves p) j = topoType p j := by
  unfold topoType
  rw [clear_topoRaw, if_neg h, famGet_zeroFrom _ _ _ hj]

theorem firstZero_cacheType_clear (p : CpuPolicy) (h : ¬ basic_max_leaf p < 4) :
    firstZero (cacheType (x86_cpu_policy_clear_out_of_range_leaves p)) CPUID_GUEST_NR_CACHE =
      firstZero (cacheType p) CPUID_GUEST_NR_CACHE := by
  apply firstZero_eq
  · exact firstZero_le _ _
  · intro j hj
    rw [cacheType_clear p h j hj]
    exact firstZero_pos _ _ _ hj
  · intro hlt
    generalize hF : firstZero (cacheType p) CPUID_GUEST_NR_CACHE = F at hlt ⊢
    unfold cacheType
    rw [clear_cacheRaw, if_neg h, hF, famGet_zeroFrom_ge _ _ _ (Nat.le_refl _)]
    simp [zeroRegs]

theorem firstZero_topoType_clear (p : CpuPolicy) (h : ¬ basic_max_leaf p < 11) :
    firstZero (topoType (x86_cpu_policy_clear_out_of_range_leaves p)) CPUID_GUEST_NR_TOPO =
      firstZero (topoType p) CPUID_GUEST_NR_TOPO := by
  apply firstZero_eq
  · exact firstZero_le _ _
  · intro j hj
    rw [topoType_clear p h j hj]
    exact firstZero_pos _ _ _ hj
  · intro hlt
    generalize hF : firstZero (topoType p) CPUID_GUEST_NR_TOPO = F at hlt ⊢
    unfold topoType
    rw [clear_topoRaw, if_neg h, hF, famGet_zeroFrom_ge _ _ _ (Nat.le_refl _)]
    simp [zeroRegs]

theorem xstates_clear (p : CpuPolicy) (h : ¬ basic_max_leaf p < 13) :
    xstates (x86_cpu_policy_clear_out_of_range_leaves p) = xstates p := by
  have hget : ∀ i : Nat, i < 2 →
      famGet (x86_cpu_policy_clear_out_of_range_leaves p).xstateRaw i = famGet p.xstateRaw i := by
    intro i hi
    rw [clear_xstateRaw, if_neg h]
    have hn : i < CPUID_GUEST_NR_XSTATE := by
      have h63 : (CPUID_GUEST_NR_XSTATE : Nat) = 63 := rfl
      omega
    simp only [famGet, dif_pos hn]
    rw [if_pos (Or.inl hi)]
  unfold xstates xcr0_low xcr0_high xss_low xss_high
  rw [hget 0 (by omega), hget 1 (by omega)]

theorem clear_xstateRaw_apply (p : CpuPolicy) (i : Fin CPUID_GUEST_NR_XSTATE) :
    (x86_cpu_policy_clear_out_of_range_leaves p).xstateRaw i =
      if basic_max_leaf p < 13 then zeroRegs
      else if i.val < 2 ∨ Nat.testBit (xstates p) i.val then p.xstateRaw i
      else zeroRegs := by
  rw [clear_xstateRaw]
  split <;> rfl

/-- Policy of the first scenario of test_cpuid_out_of_range_clearing:
declared basic max_leaf 0, with 0xc2 marker bytes planted in the basic
vendor word of leaf 0, the family/model/stepping word of leaf 1, and
the first subleaves of the cache, feat, topo and xstate families. -/
def markerPolicyBasic : CpuPolicy :=
  { zeroPolicy with
    basicRaw := famSet (famSet zeroPolicy.basicRaw 0 ⟨0, 194, 0, 0⟩) 1 ⟨194, 0, 0, 0⟩,
    cacheRaw := famSet zeroPolicy.cacheRaw 0 ⟨194, 0, 0, 0⟩,
    featRaw := famSet zeroPolicy.featRaw 0 ⟨194, 0, 0, 0⟩,
    topoRaw := famSet zeroPolicy.topoRaw 0 ⟨194, 0, 0, 0⟩,
    xstateRaw := famSet (famSet zeroPolicy.xstateRaw 0 ⟨194, 0, 0, 0⟩) 1 ⟨194, 0, 0, 0⟩ }

/-- C7 counterexample: on the first scenario of
test_cpuid_out_of_range_clearing (declared basic max_leaf 0), the
sanitizer clears feat subleaf 0 even though 0 lies in 0..max_subleaf,
and clears xstate subleaves 0 and 1, contradicting the claim that feat
retains subleaves 0..max_subleaf and that xstate always retains
subleaves 0 and 1: those per-family retention rules only apply once the
governing basic max_leaf threshold (7 for feat, 0xd for xstate) is
met. -/
theorem clear_out_of_range_spec_counterexample :
    markerPolicyBasic.featRaw ⟨0, by decide⟩ ≠ zeroRegs ∧
    (x86_cpu_policy_clear_out_of_range_leaves markerPolicyBasic).featRaw ⟨0, by decide⟩
      = zeroRegs ∧
    markerPolicyBasic.xstateRaw ⟨0, by decide⟩ ≠ zeroRegs ∧
    markerPolicyBasic.xstateRaw ⟨1, by decide⟩ ≠ zeroRegs ∧
    (x86_cpu_policy_clear_out_of_range_leaves markerPolicyBasic).xstateRaw ⟨0, by decide⟩
      = zeroRegs ∧
    (x86_cpu_policy_clear_out_of_range_leaves markerPolicyBasic).xstateRaw ⟨1, by decide⟩
      = zeroRegs := by
  decide

/-- C7 (amended): the range sanitizer zeroes exactly the fields outside
the ranges the record itself declares as populated: basic/extd slots
beyond the declared max_leaf are cleared (with max_leaf 0 only the leaf-0
vendor marker words survive); when the governing max_leaf threshold is
met, cache/topo retain subleaves strictly before the first type-0
terminator, feat retains subleaves 0..max_subleaf, and xstate retains
subleaves 0 and 1 plus the subleaves whose combined-mask bit is set;
when the threshold is unmet those families are cleared entirely; all
non-CPUID fields are untouched. -/
theorem clear_out_of_range_retention (p : CpuPolicy) :
    (∀ i : Fin CPUID_GUEST_NR_BASIC,
      (x86_cpu_policy_clear_out_of_range_leaves p).basicRaw i =
        if i.val ≤ basic_max_leaf p then p.basicRaw i else zeroRegs) ∧
    (∀ i : Fin CPUID_GUEST_NR_CACHE,
      (x86_cpu_policy_clear_out_of_range_leaves p).cacheRaw i =
        if 4 ≤ basic_max_leaf p ∧ (∀ j, j ≤ i.val → cacheType p j ≠ 0)
        then p.cacheRaw i else zeroRegs) ∧
    (∀ i : Fin CPUID_GUEST_NR_FEAT,
      (x86_cpu_policy_clear_out_of_range_leaves p).featRaw i =
        if 7 ≤ basic_max_leaf p ∧ i.val ≤ feat_max_subleaf p
        then p.featRaw i else zeroRegs) ∧
    (∀ i : Fin CPUID_GUEST_NR_TOPO,
      (x86_cpu_policy_clear_out_of_range_leaves p).topoRaw i =
        if 11 ≤ basic_max_leaf p ∧ (∀ j, j ≤ i.val → topoType p j ≠ 0)
        then p.topoRaw i else zeroRegs) ∧
    (∀ i : Fin CPUID_GUEST_NR_XSTATE,
      (x86_cpu_policy_clear_out_of_range_leaves p).xstateRaw i =
        if 13 ≤ basic_max_leaf p ∧ (i.val < 2 ∨ Nat.testBit (xstates p) i.val)
        then p.xstateRaw i else zeroRegs) ∧
    (∀ i : Fin CPUID_GUEST_NR_EXTD,
      (x86_cpu_policy_clear_out_of_range_leaves p).extdRaw i =
        if i.val ≤ (extd_max_leaf p &&& 65535) then p.extdRaw i else zeroRegs) ∧
    (x86_cpu_policy_clear_out_of_range_leaves p).hv_limit = p.hv_limit ∧
    (x86_cpu_policy_clear_out_of_range_leaves p).hv2_limit = p.hv2_limit ∧
    (x86_cpu_policy_clear_out_of_range_leaves p).platform_info_raw = p.platform_info_raw ∧
    (x86_cpu_policy_clear_out_of_range_leaves p).arch_caps_raw = p.arch_caps_raw := by
  refine ⟨?_, ?_, ?_, ?_, ?_, ?_, rfl, rfl, rfl, rfl⟩
  · intro i
    rw [clear_basicRaw, zeroFrom_apply]
    by_cases hi : i.val ≤ basic_max_leaf p
    · rw [if_neg (by omega), if_pos hi]
    · rw [if_pos (by omega), if_neg hi]
  · intro i
    have hcap : i.val < CPUID_GUEST_NR_CACHE := i.isLt
    by_cases h4 : basic_max_leaf p < 4
    · rw [clear_cacheRaw, if_pos h4, zeroFrom_apply, if_pos (Nat.zero_le _),
        if_neg (by rintro ⟨h1, -⟩; omega)]
    · rw [clear_cacheRaw, if_neg h4, zeroFrom_apply]
      by_cases hF : firstZero (cacheType p) CPUID_GUEST_NR_CACHE ≤ i.val
      · have hB : ¬(4 ≤ basic_max_leaf p ∧ ∀ j, j ≤ i.val → cacheType p j ≠ 0) := by
          rintro ⟨-, hall⟩
          have := (lt_firstZero_iff (cacheType p) CPUID_GUEST_NR_CACHE i.val hcap).2 hall
          omega
        rw [if_pos hF, if_neg hB]
      · have hB : 4 ≤ basic_max_leaf p ∧ ∀ j, j ≤ i.val → cacheType p j ≠ 0 :=
          ⟨by omega,
           (lt_firstZero_iff (cacheType p) CPUID_GUEST_NR_CACHE i.val hcap).1 (by omega)⟩
        rw [if_neg hF, if_pos hB]
  · intro i
    by_cases h7 : basic_max_leaf p < 7
    · rw [clear_featRaw, if_pos h7, zeroFrom_apply, if_pos (Nat.zero_le _),
        if_neg (by rintro ⟨h1, -⟩; omega)]
    · rw [clear_featRaw, if_neg h7, zeroFrom_apply]
      by_cases hi : i.val ≤ feat_max_subleaf p
      · rw [if_neg (by omega), if_pos ⟨by omega, hi⟩]
      · rw [if_pos (by omega), if_neg (by rintro ⟨-, hc⟩; omega)]
  · intro i
    have hcap : i.val < CPUID_GUEST_NR_TOPO := i.isLt
    by_cases h11 : basic_max_leaf p < 11
    · rw [clear_topoRaw, if_pos h11, zeroFrom_apply, if_pos (Nat.zero_le _),
        if_neg (by rintro ⟨h1, -⟩; omega)]
    · rw [clear_topoRaw, if_neg h11, zeroFrom_apply]
      by_cases hF : firstZero (topoType p) CPUID_GUEST_NR_TOPO ≤ i.val
      · have hB : ¬(11 ≤ basic_max_leaf p ∧ ∀ j, j ≤ i.val → topoType p j ≠ 0) := by
          rintro ⟨-, hall⟩
          have := (lt_firstZero_iff (topoType p) CPUID_GUEST_NR_TOPO i.val hcap).2 hall
          omega
        rw [if_pos hF, if_neg hB]
      · have hB : 11 ≤ basic_max_leaf p ∧ ∀ j, j ≤ i.val → topoType p j ≠ 0 :=
          ⟨by omega,
           (lt_firstZero_iff (topoType p) CPUID_GUEST_NR_TOPO i.val hcap).1 (by omega)⟩
        rw [if_neg hF, if_pos hB]
  · intro i
    rw [clear_xstateRaw_apply]
    by_cases h13 : basic_max_leaf p < 13
    · rw [if_pos h13, if_neg (by rintro ⟨hc, -⟩; omega)]
    · rw [if_neg h13]
      by_cases hc : i.val < 2 ∨ Nat.testBit (xstates p) i.val
      · rw [if_pos hc, if_pos ⟨by omega, hc⟩]
      · rw [if_neg hc, if_neg (by rintro ⟨-, hcc⟩; exact hc hcc)]
  · intro i
    rw [clear_extdRaw, zeroFrom_apply]
    by_cases hi : i.val ≤ (extd_max_leaf p &&& 65535)
    · rw [if_neg (by omega), if_pos hi]
    · rw [if_pos (by omega), if_neg hi]

/-- C8: the range sanitizer is idempotent: a second application changes
nothing, so a record that is already clean is left unchanged. -/
theorem clear_out_of_range_idem (p : CpuPolicy) :
    x86_cpu_policy_clear_out_of_range_leaves (x86_cpu_policy_clear_out_of_range_leaves p) =
      x86_cpu_policy_clear_out_of_range_leaves p := by
  apply CpuPolicy.ext
  · rw [clear_basicRaw (x86_cpu_policy_clear_out_of_range_leaves p), basic_max_leaf_clear,
      clear_basicRaw p, zeroFrom_idem]
  · rw [clear_cacheRaw (x86_cpu_policy_clear_out_of_range_leaves p), basic_max_leaf_clear]
    by_cases h4 : basic_max_leaf p < 4
    · rw [if_pos h4, clear_cacheRaw p, if_pos h4, zeroFrom_idem]
    · rw [if_neg h4, firstZero_cacheType_clear p h4, clear_cacheRaw p, if_neg h4, zeroFrom_idem]
  · rw [clear_featRaw (x86_cpu_policy_clear_out_of_range_leaves p), basic_max_leaf_clear]
    by_cases h7 : basic_max_leaf p < 7
    · rw [if_pos h7, clear_featRaw p, if_pos h7, zeroFrom_idem]
    · rw [if_neg h7, feat_max_subleaf_clear p h7, clear_featRaw p, if_neg h7, zeroFrom_idem]
  · rw [clear_topoRaw (x86_cpu_policy_clear_out_of_range_leaves p), basic_max_leaf_clear]
    by_cases h11 : basic_max_leaf p < 11
    · rw [if_pos h11, clear_topoRaw p, if_pos h11, zeroFrom_idem]
    · rw [if_neg h11, firstZero_topoType_clear p h11, clear_topoRaw p, if_neg h11, zeroFrom_idem]
  · by_cases h13 : basic_max_leaf p < 13
    · rw [clear_xstateRaw (x86_cpu_policy_clear_out_of_range_leaves p), basic_max_leaf_clear,
        if_pos h13, clear_xstateRaw p, if_pos h13]
    · funext j
      rw [clear_xstateRaw_apply (x86_cpu_policy_clear_out_of_range_leaves p) j,
        basic_max_leaf_clear, xstates_clear p h13, if_neg h13,
        clear_xstateRaw_apply p j, if_neg h13]
      by_cases hc : j.val < 2 ∨ Nat.testBit (xstates p) j.val
      · simp [hc]
      · simp [hc]
  · rw [clear_extdRaw (x86_cpu_policy_clear_out_of_range_leaves p), extd_max_leaf_clear,
      clear_extdRaw p, zeroFrom_idem]
  · rfl
  · rfl
  · rfl
  · rfl

/-
Deserialiser first-failure plumbing.
-/

theorem findBadLeaf_append_valid (pre rest : List WireLeaf)
    (h : ∀ x ∈ pre, validLeaf x) :
    findBadLeaf (pre ++ rest) = findBadLeaf rest := by
  induction pre with
  | nil => rfl
  | cons e pre ih =>
    simp only [List.cons_append, findBadLeaf]
    rw [if_pos (h e (List.mem_cons_self e pre))]
    exact ih (fun x hx => h x (List.mem_cons_of_mem e hx))

theorem findBadLeaf_none_of_valid (l : List WireLeaf) (h : ∀ x ∈ l, validLeaf x) :
    findBadLeaf l = none := by
  induction l with
  | nil => rfl
  | cons e l ih =>
    simp only [findBadLeaf]
    rw [if_pos (h e (List.mem_cons_self e l))]
    exact ih (fun x hx => h x (List.mem_cons_of_mem e hx))

/-- C1: a wire leaf sequence whose first invalid entry has a top-level
leaf outside the known basic/hypervisor/extended families, or a subleaf
at or above its family's fixed capacity, makes deserialisation fail with
-ERANGE reporting exactly that entry's (leaf, subleaf) pair, and the
destination record, null or not, is returned entirely unmodified. -/
theorem cpuid_deserialise_invalid_atomic (dst : Option CpuPolicy)
    (pre rest : List WireLeaf) (e : WireLeaf)
    (hpre : ∀ x ∈ pre, validLeaf x)
    (hbad :
      (CPUID_GUEST_NR_BASIC ≤ e.leaf ∧ e.leaf ≠ 1073741824 ∧ e.leaf ≠ 1073742080 ∧
        ¬(2147483648 ≤ e.leaf ∧ e.leaf < 2147483648 + CPUID_GUEST_NR_EXTD)) ∨
      (e.leaf = 4 ∧ CPUID_GUEST_NR_CACHE ≤ e.subleaf) ∨
      (e.leaf = 7 ∧ CPUID_GUEST_NR_FEAT ≤ e.subleaf) ∨
      (e.leaf = 11 ∧ CPUID_GUEST_NR_TOPO ≤ e.subleaf) ∨
      (e.leaf = 13 ∧ CPUID_GUEST_NR_XSTATE ≤ e.subleaf)) :
    x86_cpuid_copy_from_buffer dst (pre ++ e :: rest) = ⟨-34, e.leaf, e.subleaf, dst⟩ := by
  have hinv : ¬ validLeaf e := by
    intro hv
    unfold validLeaf at hv
    have c14 : (CPUID_GUEST_NR_BASIC : Nat) = 14 := rfl
    have c6 : (CPUID_GUEST_NR_CACHE : Nat) = 6 := rfl
    have c3 : (CPUID_GUEST_NR_FEAT : Nat) = 3 := rfl
    have c2 : (CPUID_GUEST_NR_TOPO : Nat) = 2 := rfl
    have c63 : (CPUID_GUEST_NR_XSTATE : Nat) = 63 := rfl
    have c34 : (CPUID_GUEST_NR_EXTD : Nat) = 34 := rfl
    rcases hbad with ⟨h1, h2, h3, h4⟩ | ⟨h1, h2⟩ | ⟨h1, h2⟩ | ⟨h1, h2⟩ | ⟨h1, h2⟩
    · rw [if_neg (by omega), if_neg (not_or.mpr ⟨h2, h3⟩), if_neg h4] at hv
      exact hv
    · rw [if_pos (by omega), if_pos h1] at hv
      omega
    · rw [if_pos (by omega)] at hv
      rw [if_neg (by omega), if_pos h1] at hv
      omega
    · rw [if_pos (by omega)] at hv
      rw [if_neg (by omega), if_neg (by omega), if_pos h1] at hv
      omega
    · rw [if_pos (by omega)] at hv
      rw [if_neg (by omega), if_neg (by omega), if_neg (by omega), if_pos h1] at hv
      omega
  unfold x86_cpuid_copy_from_buffer
  rw [findBadLeaf_append_valid pre (e :: rest) hpre]
  simp only [findBadLeaf, if_neg hinv]

/-- C1 witness: the out-of-bounds basic-leaf scenario of
test_cpuid_deserialise_failure, validated against a null destination. -/
theorem cpuid_deserialise_invalid_atomic_witness :
    x86_cpuid_copy_from_buffer none [⟨14, 0, 1, 2, 3, 4⟩] = ⟨-34, 14, 0, none⟩ := by
  have h := cpuid_deserialise_invalid_atomic none [] [] ⟨14, 0, 1, 2, 3, 4⟩
    (by intro x hx; cases hx) (Or.inl (by decide))
  simpa using h

/-- C10: a wire record for any of the non-subleaved top-level leaves
(basic leaf 0, the hypervisor leaves 0x40000000 and 0x40000100, extended
leaf 0x80000000) whose subleaf field is 0 instead of the dedicated
no-subleaf marker is rejected with -ERANGE, reporting the pair exactly
as submitted, even though subleaf 0 exceeds no family capacity. -/
theorem cpuid_no_subleaf_marker_enforced (dst : Option CpuPolicy) (l a b c d : Nat)
    (hl : l = 0 ∨ l = 1073741824 ∨ l = 1073742080 ∨ l = 2147483648) :
    x86_cpuid_copy_from_buffer dst [⟨l, 0, a, b, c, d⟩] = ⟨-34, l, 0, dst⟩ := by
  have hinv : ¬ validLeaf ⟨l, 0, a, b, c, d⟩ := by
    intro hv
    unfold validLeaf at hv
    rcases hl with rfl | rfl | rfl | rfl <;>
      simp [XEN_CPUID_NO_SUBLEAF, CPUID_GUEST_NR_BASIC, CPUID_GUEST_NR_EXTD] at hv
  unfold x86_cpuid_copy_from_buffer
  simp only [findBadLeaf, if_neg hinv]

/-- C10 witness: the incorrect-hypervisor-subleaf scenario of
test_cpuid_deserialise_failure. -/
theorem cpuid_no_subleaf_marker_enforced_witness :
    x86_cpuid_copy_from_buffer none [⟨1073741824, 0, 0, 0, 0, 0⟩] =
      ⟨-34, 1073741824, 0, none⟩ :=
  cpuid_no_subleaf_marker_enforced none 1073741824 0 0 0 0 (Or.inr (Or.inl rfl))

/-
MSR deserialiser first-failure plumbing.
-/

theorem findBadMsr_append_valid (pre rest : List MsrEntry)
    (h : ∀ x ∈ pre, msrEntryErr x = none) :
    findBadMsr (pre ++ rest) = findBadMsr rest := by
  induction pre with
  | nil => rfl
  | cons e pre ih =>
    simp only [List.cons_append, findBadMsr]
    rw [h e (List.mem_cons_self e pre)]
    exact ih (fun x hx => h x (List.mem_cons_of_mem e hx))

/-- C6: the MSR deserialiser rejects the first offending entry with a
distinct error class, always reporting the exact offending index and
leaving the destination unmodified: an index off the allow-list fails
with -ERANGE; an allow-listed index with nonzero reserved flags fails
with -EINVAL; an allow-listed index whose value exceeds the
architectural width of that index fails with -EOVERFLOW. -/
theorem msr_deserialise_error_classes (dst : Option CpuPolicy)
    (pre rest : List MsrEntry) (e : MsrEntry)
    (hpre : ∀ x ∈ pre, msrEntryErr x = none) :
    (msrWidth e.idx = none →
      x86_msr_copy_from_buffer dst (pre ++ e :: rest) = ⟨-34, e.idx, dst⟩) ∧
    (∀ w, msrWidth e.idx = some w → e.flags ≠ 0 →
      x86_msr_copy_from_buffer dst (pre ++ e :: rest) = ⟨-22, e.idx, dst⟩) ∧
    (∀ w, msrWidth e.idx = some w → e.flags = 0 → 2 ^ w ≤ e.val →
      x86_msr_copy_from_buffer dst (pre ++ e :: rest) = ⟨-75, e.idx, dst⟩) := by
  refine ⟨?_, ?_, ?_⟩
  · intro hw
    have herr : msrEntryErr e = some (-34) := by
      unfold msrEntryErr
      rw [hw]
    unfold x86_msr_copy_from_buffer
    rw [findBadMsr_append_valid pre (e :: rest) hpre]
    simp only [findBadMsr, herr]
  · intro w hw hf
    have herr : msrEntryErr e = some (-22) := by
      unfold msrEntryErr
      rw [hw]
      simp [hf]
    unfold x86_msr_copy_from_buffer
    rw [findBadMsr_append_valid pre (e :: rest) hpre]
    simp only [findBadMsr, herr]
  · intro w hw hf hv
    have herr : msrEntryErr e = some (-75) := by
      unfold msrEntryErr
      rw [hw]
      show (if e.flags ≠ 0 then some (-22)
            else if 2 ^ w ≤ e.val then some (-75) else none) = some (-75)
      rw [if_neg (by simp [hf]), if_pos hv]
    unfold x86_msr_copy_from_buffer
    rw [findBadMsr_append_valid pre (e :: rest) hpre]
    simp only [findBadMsr, herr]

/-- C6 witness: the three failure scenarios of
test_msr_deserialise_failure, each against a null destination. -/
theorem msr_deserialise_error_classes_witness :
    x86_msr_copy_from_buffer none [⟨3735929054, 0, 0⟩] = ⟨-34, 3735929054, none⟩ ∧
    x86_msr_copy_from_buffer none [⟨206, 1, 0⟩] = ⟨-22, 206, none⟩ ∧
    x86_msr_copy_from_buffer none [⟨206, 0, 18446744073709551615⟩] = ⟨-75, 206, none⟩ := by
  refine ⟨?_, ?_, ?_⟩
  · have h := (msr_deserialise_error_classes none [] [] ⟨3735929054, 0, 0⟩
      (by intro x hx; cases hx)).1 (by decide)
    simpa using h
  · have h := (msr_deserialise_error_classes none [] [] ⟨206, 1, 0⟩
      (by intro x hx; cases hx)).2.1 32 (by decide) (by decide)
    simpa using h
  · have h := (msr_deserialise_error_classes none [] [] ⟨206, 0, 18446744073709551615⟩
      (by intro x hx; cases hx)).2.2 32 (by decide) rfl (by decide)
    simpa using h

/-- Guest record of the basic-max_leaf compatibility failure scenario:
declared basic max_leaf 1, everything else zero. -/
def guestBasic1 : CpuPolicy :=
  { zeroPolicy with basicRaw := famSet zeroPolicy.basicRaw 0 ⟨1, 0, 0, 0⟩ }

/-- Guest record of the extended-max_leaf compatibility failure scenario:
declared extended max_leaf 1, everything else zero. -/
def guestExtd1 : CpuPolicy :=
  { zeroPolicy with extdRaw := famSet zeroPolicy.extdRaw 0 ⟨1, 0, 0, 0⟩ }

/-- Record with the CPUID-faulting capability bit (bit 31 of the
platform-info MSR word) set, everything else zero. -/
def faultingPolicy : CpuPolicy :=
  { zeroPolicy with platform_info_raw := 2147483648 }

/-- C2: the compatibility oracle returns an incompatible verdict with a
three-field locator whose dimensions are sentinels exactly when they did
not cause the failure: a guest basic max_leaf exceeding the host's
reports leaf 0 with subleaf/msr sentinel; past that check, a guest
extended max_leaf exceeding the host's reports the extended base marker
0x80000000; past both, a guest requiring CPUID-faulting that the host
lacks reports msr 0xce with leaf/subleaf sentinel; and on a compatible
pair the verdict is success with the all-sentinel locator. -/
theorem policies_compatible_locator (host guest : CpuPolicy) :
    (basic_max_leaf host < basic_max_leaf guest →
      x86_cpu_policies_are_compatible host guest =
        (-22, ⟨0, 4294967295, 4294967295⟩)) ∧
    (basic_max_leaf guest ≤ basic_max_leaf host →
      extd_max_leaf host < extd_max_leaf guest →
      x86_cpu_policies_are_compatible host guest =
        (-22, ⟨2147483648, 4294967295, 4294967295⟩)) ∧
    (basic_max_leaf guest ≤ basic_max_leaf host →
      extd_max_leaf guest ≤ extd_max_leaf host →
      Nat.testBit guest.platform_info_raw 31 = true →
      Nat.testBit host.platform_info_raw 31 = false →
      x86_cpu_policies_are_compatible host guest =
        (-22, ⟨4294967295, 4294967295, 206⟩)) ∧
    (basic_max_leaf guest ≤ basic_max_leaf host →
      extd_max_leaf guest ≤ extd_max_leaf host →
      (guest.platform_info_raw % 4294967296) &&&
        ((host.platform_info_raw % 4294967296) ^^^ 4294967295) = 0 →
      x86_cpu_policies_are_compatible host guest = (0, INIT_CPU_POLICY_ERRORS)) := by
  refine ⟨?_, ?_, ?_, ?_⟩
  · intro h1
    unfold x86_cpu_policies_are_compatible
    rw [if_pos h1]
  · intro h1 h2
    unfold x86_cpu_policies_are_compatible
    rw [if_neg (by omega), if_pos h2]
  · intro h1 h2 hg hh
    have hbit : Nat.testBit ((guest.platform_info_raw % 4294967296) &&&
        ((host.platform_info_raw % 4294967296) ^^^ 4294967295)) 31 = true := by
      have e32 : (4294967296 : Nat) = 2 ^ 32 := by norm_num
      rw [Nat.testBit_and, Nat.testBit_xor, e32, Nat.testBit_mod_two_pow,
        Nat.testBit_mod_two_pow, hg, hh]
      decide
    have hne : (guest.platform_info_raw % 4294967296) &&&
        ((host.platform_info_raw % 4294967296) ^^^ 4294967295) ≠ 0 := by
      intro h0
      rw [h0, Nat.zero_testBit] at hbit
      cases hbit
    unfold x86_cpu_policies_are_compatible
    rw [if_neg (by omega), if_neg (by omega), if_pos hne]
  · intro h1 h2 h3
    unfold x86_cpu_policies_are_compatible
    rw [if_neg (by omega), if_neg (by omega), if_neg (not_not_intro h3)]

/-- C2 witness: the three failure scenarios of test_is_compatible_failure
and the wanted-and-offered success scenario of
test_is_compatible_success, at concrete records. -/
theorem policies_compatible_locator_witness :
    x86_cpu_policies_are_compatible zeroPolicy guestBasic1 =
      (-22, ⟨0, 4294967295, 4294967295⟩) ∧
    x86_cpu_policies_are_compatible zeroPolicy guestExtd1 =
      (-22, ⟨2147483648, 4294967295, 4294967295⟩) ∧
    x86_cpu_policies_are_compatible zeroPolicy faultingPolicy =
      (-22, ⟨4294967295, 4294967295, 206⟩) ∧
    x86_cpu_policies_are_compatible faultingPolicy faultingPolicy =
      (0, INIT_CPU_POLICY_ERRORS) := by
  refine ⟨?_, ?_, ?_, ?_⟩
  · exact (policies_compatible_locator zeroPolicy guestBasic1).1 (by decide)
  · exact (policies_compatible_locator zeroPolicy guestExtd1).2.1 (by decide) (by decide)
  · exact (policies_compatible_locator zeroPolicy faultingPolicy).2.2.1 (by decide)
      (by decide) (by decide) (by decide)
  · exact (policies_compatible_locator faultingPolicy faultingPolicy).2.2.2 (by decide)
      (by decide) (by decide)

/-- Policy Record of the partial-leaf-4 serialisation scenario: declared
basic max_leaf 4 with cache subleaf 0 carrying type tag 1. -/
def leaf4Policy : CpuPolicy :=
  { zeroPolicy with
    basicRaw := famSet zeroPolicy.basicRaw 0 ⟨4, 0, 0, 0⟩,
    cacheRaw := famSet zeroPolicy.cacheRaw 0 ⟨1, 0, 0, 0⟩ }

/-- C3: an all-zero Policy Record serialises to exactly 4 wire leaves,
and a record with basic max_leaf 4 and cache subleaf 0 of type 1
serialises to exactly 9 wire leaves, per the family emission rules. -/
theorem cpuid_serialise_counts :
    (serialiseLeaves zeroPolicy).length = 4 ∧
    (serialiseLeaves leaf4Policy).length = 9 := by
  decide

/-- Modelled from the spec (stated only for comparison with the
serialiser model): the number of populated MSR-backed fields of a
record, reading populated as carrying a nonzero value. -/
def specPopulatedMsrCount (p : CpuPolicy) : Nat :=
  (if p.platform_info_raw ≠ 0 then 1 else 0) + (if p.arch_caps_raw ≠ 0 then 1 else 0)

/-- C9 counterexample: the all-zero Policy Record has no populated
(nonzero) MSR-backed field, yet the MSR serialiser emits 2 entries, the
full allow-list, exactly as test_msr_serialise_success expects for the
empty policy. -/
theorem msr_serialise_count_counterexample :
    (serialiseMsrs zeroPolicy).length ≠ specPopulatedMsrCount zeroPolicy ∧
    (serialiseMsrs zeroPolicy).length = 2 ∧
    specPopulatedMsrCount zeroPolicy = 0 := by
  decide

/-- C9 (amended): the MSR serialiser walks the MSR-backed fields in
fixed ascending index order and emits one wire entry per allow-listed
field regardless of its value, so every Policy Record serialises to
exactly MSR_MAX_SERIALISED_ENTRIES entries, and the capacity-checked
call fails with -ENOBUFS, writing nothing, when the supplied capacity is
insufficient. -/
theorem msr_serialise_full_allowlist (p : CpuPolicy) (cap : Nat) :
    serialiseMsrs p = [⟨206, 0, p.platform_info_raw⟩, ⟨266, 0, p.arch_caps_raw⟩] ∧
    (serialiseMsrs p).length = MSR_MAX_SERIALISED_ENTRIES ∧
    msrs_are_sorted (serialiseMsrs p) = true ∧
    (MSR_MAX_SERIALISED_ENTRIES ≤ cap →
      x86_msr_copy_to_buffer p cap = Except.ok (serialiseMsrs p)) ∧
    (cap < MSR_MAX_SERIALISED_ENTRIES →
      x86_msr_copy_to_buffer p cap = Except.error (-105)) := by
  refine ⟨rfl, rfl, rfl, ?_, ?_⟩
  · intro h
    unfold x86_msr_copy_to_buffer
    rw [if_pos h]
  · intro h
    unfold x86_msr_copy_to_buffer
    rw [if_neg (by omega)]

/-- C9 witness: the empty-policy scenario of test_msr_serialise_success
with exactly sufficient capacity, and the same record with capacity 1. -/
theorem msr_serialise_full_allowlist_witness :
    x86_msr_copy_to_buffer zeroPolicy 2 = Except.ok [⟨206, 0, 0⟩, ⟨266, 0, 0⟩] ∧
    x86_msr_copy_to_buffer zeroPolicy 1 = Except.error (-105) := by
  constructor
  · have h := (msr_serialise_full_allowlist zeroPolicy 2).2.2.2.1 (by decide)
    simpa [serialiseMsrs] using h
  · exact (msr_serialise_full_allowlist zeroPolicy 1).2.2.2.2 (by decide)

/-- Strict lexicographic order on (leaf, subleaf) wire coordinates. -/
def leafLt (x y : WireLeaf) : Prop :=
  x.leaf < y.leaf ∨ (x.leaf = y.leaf ∧ x.subleaf < y.subleaf)

instance : IsTrans WireLeaf leafLt :=
  ⟨by
    intro a b c hab hbc
    unfold leafLt at hab hbc ⊢
    omega⟩

theorem chain_leafLt_subleaf_map (l k : Nat) (g : Nat → CpuidLeafRegs) :
    List.Chain' leafLt ((List.range k).map (fun s => wireOf l s (g s))) := by
  induction k with
  | zero => simp
  | succ k ih =>
    rw [List.range_succ, List.map_append]
    apply List.Chain'.append ih (List.chain'_singleton _)
    intro x hx y hy
    have hx2 : x ∈ (List.range k).map (fun s => wireOf l s (g s)) :=
      List.mem_of_mem_getLast? hx
    rcases List.mem_map.1 hx2 with ⟨s, hs, rfl⟩
    have hy2 : y = wireOf l k (g k) := by
      simp only [List.map_cons, List.map_nil, List.head?_cons, Option.mem_def,
        Option.some.injEq] at hy
      exact hy.symm
    subst hy2
    exact Or.inr ⟨rfl, List.mem_range.1 hs⟩

theorem chain_leafLt_extd_map (p : CpuPolicy) (k : Nat) :
    List.Chain' leafLt ((List.range k).map
      (fun l => wireOf (2147483648 + l) XEN_CPUID_NO_SUBLEAF (famGet p.extdRaw l))) := by
  induction k with
  | zero => simp
  | succ k ih =>
    rw [List.range_succ, List.map_append]
    apply List.Chain'.append ih (List.chain'_singleton _)
    intro x hx y hy
    have hx2 : x ∈ (List.range k).map
        (fun l => wireOf (2147483648 + l) XEN_CPUID_NO_SUBLEAF (famGet p.extdRaw l)) :=
      List.mem_of_mem_getLast? hx
    rcases List.mem_map.1 hx2 with ⟨s, hs, rfl⟩
    have hy2 : y = wireOf (2147483648 + k) XEN_CPUID_NO_SUBLEAF (famGet p.extdRaw k) := by
      simp only [List.map_cons, List.map_nil, List.head?_cons, Option.mem_def,
        Option.some.injEq] at hy
      exact hy.symm
    subst hy2
    have hs2 : s < k := List.mem_range.1 hs
    exact Or.inl (by simp only [wireOf]; omega)

theorem mem_basicBlock_leaf (p : CpuPolicy) (l : Nat) (x : WireLeaf)
    (hx : x ∈ basicBlock p l) : x.leaf = l := by
  unfold basicBlock at hx
  by_cases h4 : l = 4
  · rw [if_pos h4] at hx
    rcases List.mem_map.1 hx with ⟨s, hs, rfl⟩
    exact h4.symm
  · rw [if_neg h4] at hx
    by_cases h7 : l = 7
    · rw [if_pos h7] at hx
      rcases List.mem_map.1 hx with ⟨s, hs, rfl⟩
      exact h7.symm
    · rw [if_neg h7] at hx
      by_cases h11 : l = 11
      · rw [if_pos h11] at hx
        rcases List.mem_map.1 hx with ⟨s, hs, rfl⟩
        exact h11.symm
      · rw [if_neg h11] at hx
        by_cases h13 : l = 13
        · rw [if_pos h13] at hx
          rcases List.mem_map.1 hx with ⟨s, hs, rfl⟩
          exact h13.symm
        · rw [if_neg h13] at hx
          simp only [List.mem_singleton] at hx
          subst hx
          rfl

theorem chain_leafLt_basicBlock (p : CpuPolicy) (l : Nat) :
    List.Chain' leafLt (basicBlock p l) := by
  unfold basicBlock
  by_cases h4 : l = 4
  · rw [if_pos h4]; exact chain_leafLt_subleaf_map 4 (cacheNr p) _
  · rw [if_neg h4]
    by_cases h7 : l = 7
    · rw [if_pos h7]; exact chain_leafLt_subleaf_map 7 (featNr p) _
    · rw [if_neg h7]
      by_cases h11 : l = 11
      · rw [if_pos h11]; exact chain_leafLt_subleaf_map 11 (topoNr p) _
      · rw [if_neg h11]
        by_cases h13 : l = 13
        · rw [if_pos h13]; exact chain_leafLt_subleaf_map 13 (xstateNr p) _
        · rw [if_neg h13]; exact List.chain'_singleton _

theorem chain_leafLt_basic_flatMap (p : CpuPolicy) (m : Nat) :
    List.Chain' leafLt ((List.range m).flatMap (basicBlock p)) := by
  induction m with
  | zero => simp
  | succ m ih =>
    rw [List.range_succ, List.flatMap_append]
    apply List.Chain'.append ih
    · simp only [List.flatMap_cons, List.flatMap_nil, List.append_nil]
      exact chain_leafLt_basicBlock p m
    · intro x hx y hy
      have hx2 := List.mem_of_mem_getLast? hx
      rcases List.mem_flatMap.1 hx2 with ⟨i, hi, hxi⟩
      have hy2 := List.mem_of_mem_head? hy
      simp only [List.flatMap_cons, List.flatMap_nil, List.append_nil] at hy2
      have hxl := mem_basicBlock_leaf p i x hxi
      have hyl := mem_basicBlock_leaf p m y hy2
      have him : i < m := List.mem_range.1 hi
      exact Or.inl (by omega)

theorem basicNrLeaves_le (p : CpuPolicy) : basicNrLeaves p ≤ 14 := by
  unfold basicNrLeaves
  have := Nat.min_le_right (basic_max_leaf p) (CPUID_GUEST_NR_BASIC - 1)
  have c14 : (CPUID_GUEST_NR_BASIC : Nat) = 14 := rfl
  omega

theorem extdNrLeaves_le (p : CpuPolicy) : extdNrLeaves p ≤ 34 := by
  unfold extdNrLeaves
  have := Nat.min_le_right (extd_max_leaf p &&& 65535) (CPUID_GUEST_NR_EXTD - 1)
  have c34 : (CPUID_GUEST_NR_EXTD : Nat) = 34 := rfl
  omega

theorem mem_serialise_basic_leaf_lt (p : CpuPolicy) (x : WireLeaf)
    (hx : x ∈ (List.range (basicNrLeaves p)).flatMap (basicBlock p)) : x.leaf < 14 := by
  rcases List.mem_flatMap.1 hx with ⟨i, hi, hxi⟩
  have := mem_basicBlock_leaf p i x hxi
  have := List.mem_range.1 hi
  have := basicNrLeaves_le p
  omega

theorem chain_leafLt_serialise (p : CpuPolicy) :
    List.Chain' leafLt (serialiseLeaves p) := by
  unfold serialiseLeaves
  apply List.Chain'.append
  · apply List.Chain'.append
    · exact chain_leafLt_basic_flatMap p (basicNrLeaves p)
    · exact List.chain'_cons.2 ⟨Or.inl (by norm_num [wireOf]), List.chain'_singleton _⟩
    · intro x hx y hy
      have hx2 := List.mem_of_mem_getLast? hx
      have hxl := mem_serialise_basic_leaf_lt p x hx2
      have hy2 := List.mem_of_mem_head? hy
      have hyl : y.leaf = 1073741824 := by
        simp only [List.head?_cons, Option.mem_def, Option.some.injEq] at hy
        rw [← hy]
        rfl
      exact Or.inl (by omega)
  · exact chain_leafLt_extd_map p (extdNrLeaves p)
  · intro x hx y hy
    have hx2 := List.mem_of_mem_getLast? hx
    have hy2 := List.mem_of_mem_head? hy
    rcases List.mem_map.1 hy2 with ⟨l, hl, rfl⟩
    have hxleaf : x.leaf < 1073742081 := by
      rcases List.mem_append.1 hx2 with hxa | hxh
      · have := mem_serialise_basic_leaf_lt p x hxa
        omega
      · simp only [List.mem_cons, List.mem_singleton, List.not_mem_nil, or_false] at hxh
        rcases hxh with rfl | rfl
        · norm_num [wireOf]
        · norm_num [wireOf]
    exact Or.inl (by simp only [wireOf]; omega)

theorem leaves_are_sorted_of_chain (l : List WireLeaf)
    (h : List.Chain' leafLt l) : leaves_are_sorted l = true := by
  induction l with
  | nil => rfl
  | cons x l ih =>
    cases l with
    | nil => rfl
    | cons y rest =>
      rw [List.chain'_cons] at h
      obtain ⟨hxy, hrest⟩ := h
      unfold leaves_are_sorted
      unfold leafLt at hxy
      rcases hxy with h1 | ⟨h1, h2⟩
      · rw [if_neg (by omega), if_pos h1]
        exact ih hrest
      · rw [if_neg (by omega), if_neg (by omega), if_neg (by omega)]
        exact ih hrest

/-- C5: for every Policy Record the CPUID serialiser emits a wire
sequence that passes the strict (leaf, subleaf) sortedness check of the
test harness and carries no duplicate (leaf, subleaf) pair, and the MSR
serialiser emits a sequence that passes the harness index sortedness
check and carries no duplicate index. -/
theorem serialise_sorted_no_dups (p : CpuPolicy) :
    leaves_are_sorted (serialiseLeaves p) = true ∧
    (serialiseLeaves p).Pairwise
      (fun x y => (x.leaf, x.subleaf) ≠ (y.leaf, y.subleaf)) ∧
    msrs_are_sorted (serialiseMsrs p) = true ∧
    (serialiseMsrs p).Pairwise (fun x y => x.idx ≠ y.idx) := by
  refine ⟨leaves_are_sorted_of_chain _ (chain_leafLt_serialise p), ?_, rfl, ?_⟩
  · have h := List.chain'_iff_pairwise.1 (chain_leafLt_serialise p)
    refine h.imp ?_
    intro a b hab heq
    unfold leafLt at hab
    rw [Prod.mk.injEq] at heq
    omega
  · unfold serialiseMsrs
    refine List.Pairwise.cons ?_ (List.Pairwise.cons ?_ List.Pairwise.nil)
    · intro b hb
      simp only [List.mem_singleton] at hb
      subst hb
      show (206 : Nat) ≠ 266
      norm_num
    · intro b hb
      cases hb

/-
Every record the serialiser emits passes the deserialiser's structural
validation.
-/

theorem validLeaf_cache (s : Nat) (h : s < CPUID_GUEST_NR_CACHE) (r : CpuidLeafRegs) :
    validLeaf (wireOf 4 s r) := by
  unfold validLeaf
  simp only [wireOf]
  simp
  exact ⟨by decide, h⟩

theorem validLeaf_feat (s : Nat) (h : s < CPUID_GUEST_NR_FEAT) (r : CpuidLeafRegs) :
    validLeaf (wireOf 7 s r) := by
  unfold validLeaf
  simp only [wireOf]
  simp
  exact ⟨by decide, h⟩

theorem validLeaf_topo (s : Nat) (h : s < CPUID_GUEST_NR_TOPO) (r : CpuidLeafRegs) :
    validLeaf (wireOf 11 s r) := by
  unfold validLeaf
  simp only [wireOf]
  simp
  exact ⟨by decide, h⟩

theorem validLeaf_xstate (s : Nat) (h : s < CPUID_GUEST_NR_XSTATE) (r : CpuidLeafRegs) :
    validLeaf (wireOf 13 s r) := by
  unfold validLeaf
  simp only [wireOf]
  simpa using h

theorem validLeaf_default (l : Nat) (h : l < CPUID_GUEST_NR_BASIC)
    (h4 : l ≠ 4) (h7 : l ≠ 7) (h11 : l ≠ 11) (h13 : l ≠ 13) (r : CpuidLeafRegs) :
    validLeaf (wireOf l XEN_CPUID_NO_SUBLEAF r) := by
  unfold validLeaf
  simp only [wireOf]
  rw [if_pos h, if_neg h4, if_neg h7, if_neg h11, if_neg h13]
  trivial

theorem validLeaf_hv1 (r : CpuidLeafRegs) :
    validLeaf (wireOf 1073741824 XEN_CPUID_NO_SUBLEAF r) := by
  unfold validLeaf
  simp only [wireOf]
  simp

theorem validLeaf_hv2 (r : CpuidLeafRegs) :
    validLeaf (wireOf 1073742080 XEN_CPUID_NO_SUBLEAF r) := by
  unfold validLeaf
  simp only [wireOf]
  simp

theorem validLeaf_extd (l : Nat) (h : l < CPUID_GUEST_NR_EXTD) (r : CpuidLeafRegs) :
    validLeaf (wireOf (2147483648 + l) XEN_CPUID_NO_SUBLEAF r) := by
  unfold validLeaf
  simp only [wireOf]
  have c14 : (CPUID_GUEST_NR_BASIC : Nat) = 14 := rfl
  rw [if_neg (by omega), if_neg (by omega), if_pos ⟨by omega, by omega⟩]
  trivial

theorem cacheNr_le (p : CpuPolicy) : cacheNr p ≤ CPUID_GUEST_NR_CACHE :=
  Nat.min_le_right _ _

theorem featNr_le (p : CpuPolicy) : featNr p ≤ CPUID_GUEST_NR_FEAT := by
  unfold featNr
  have := Nat.min_le_right (feat_max_subleaf p) (CPUID_GUEST_NR_FEAT - 1)
  have c3 : (CPUID_GUEST_NR_FEAT : Nat) = 3 := rfl
  omega

theorem topoNr_le (p : CpuPolicy) : topoNr p ≤ CPUID_GUEST_NR_TOPO :=
  Nat.min_le_right _ _

theorem xstateNr_le (p : CpuPolicy) : xstateNr p ≤ CPUID_GUEST_NR_XSTATE :=
  Nat.min_le_right _ _

theorem mem_basicBlock_valid (p : CpuPolicy) (l : Nat) (hl : l < CPUID_GUEST_NR_BASIC)
    (x : WireLeaf) (hx : x ∈ basicBlock p l) : validLeaf x := by
  unfold basicBlock at hx
  by_cases h4 : l = 4
  · rw [if_pos h4] at hx
    rcases List.mem_map.1 hx with ⟨s, hs, rfl⟩
    exact validLeaf_cache s (by have := List.mem_range.1 hs; have := cacheNr_le p; omega) _
  · rw [if_neg h4] at hx
    by_cases h7 : l = 7
    · rw [if_pos h7] at hx
      rcases List.mem_map.1 hx with ⟨s, hs, rfl⟩
      exact validLeaf_feat s (by have := List.mem_range.1 hs; have := featNr_le p; omega) _
    · rw [if_neg h7] at hx
      by_cases h11 : l = 11
      · rw [if_pos h11] at hx
        rcases List.mem_map.1 hx with ⟨s, hs, rfl⟩
        exact validLeaf_topo s (by have := List.mem_range.1 hs; have := topoNr_le p; omega) _
      · rw [if_neg h11] at hx
        by_cases h13 : l = 13
        · rw [if_pos h13] at hx
          rcases List.mem_map.1 hx with ⟨s, hs, rfl⟩
          exact validLeaf_xstate s
            (by have := List.mem_range.1 hs; have := xstateNr_le p; omega) _
        · rw [if_neg h13] at hx
          simp only [List.mem_singleton] at hx
          subst hx
          exact validLeaf_default l hl h4 h7 h11 h13 _

theorem serialise_valid (p : CpuPolicy) : ∀ x ∈ serialiseLeaves p, validLeaf x := by
  intro x hx
  unfold serialiseLeaves at hx
  rcases List.mem_append.1 hx with hx2 | hxE
  · rcases List.mem_append.1 hx2 with hxA | hxH
    · rcases List.mem_flatMap.1 hxA with ⟨i, hi, hxi⟩
      have him : i < basicNrLeaves p := List.mem_range.1 hi
      have h14 := basicNrLeaves_le p
      exact mem_basicBlock_valid p i (by have : (CPUID_GUEST_NR_BASIC : Nat) = 14 := rfl; omega)
        x hxi
    · simp only [List.mem_cons, List.mem_singleton, List.not_mem_nil, or_false] at hxH
      rcases hxH with rfl | rfl
      · exact validLeaf_hv1 _
      · exact validLeaf_hv2 _
  · rcases List.mem_map.1 hxE with ⟨l, hl, rfl⟩
    have hlm : l < extdNrLeaves p := List.mem_range.1 hl
    have h34 := extdNrLeaves_le p
    exact validLeaf_extd l (by have : (CPUID_GUEST_NR_EXTD : Nat) = 34 := rfl; omega) _

theorem applyLeafWrite_cache (q : CpuPolicy) (s : Nat) (r : CpuidLeafRegs) :
    applyLeafWrite q (wireOf 4 s r) = { q with cacheRaw := famSet q.cacheRaw s r } := rfl

theorem applyLeafWrite_feat (q : CpuPolicy) (s : Nat) (r : CpuidLeafRegs) :
    applyLeafWrite q (wireOf 7 s r) = { q with featRaw := famSet q.featRaw s r } := rfl

theorem applyLeafWrite_topo (q : CpuPolicy) (s : Nat) (r : CpuidLeafRegs) :
    applyLeafWrite q (wireOf 11 s r) = { q with topoRaw := famSet q.topoRaw s r } := rfl

theorem applyLeafWrite_xstate (q : CpuPolicy) (s : Nat) (r : CpuidLeafRegs) :
    applyLeafWrite q (wireOf 13 s r) = { q with xstateRaw := famSet q.xstateRaw s r } := rfl

theorem applyLeafWrite_default (q : CpuPolicy) (l : Nat) (h : l < CPUID_GUEST_NR_BASIC)
    (h4 : l ≠ 4) (h7 : l ≠ 7) (h11 : l ≠ 11) (h13 : l ≠ 13) (s : Nat) (r : CpuidLeafRegs) :
    applyLeafWrite q (wireOf l s r) = { q with basicRaw := famSet q.basicRaw l r } := by
  unfold applyLeafWrite
  simp only [wireOf]
  rw [if_pos h, if_neg h4, if_neg h7, if_neg h11, if_neg h13]

theorem applyLeafWrite_hv1 (q : CpuPolicy) (s : Nat) (r : CpuidLeafRegs) :
    applyLeafWrite q (wireOf 1073741824 s r) = { q with hv_limit := r.a } := by
  unfold applyLeafWrite
  simp only [wireOf]
  simp
  intro hlt
  exact absurd hlt (by decide)

theorem applyLeafWrite_hv2 (q : CpuPolicy) (s : Nat) (r : CpuidLeafRegs) :
    applyLeafWrite q (wireOf 1073742080 s r) = { q with hv2_limit := r.a } := by
  unfold applyLeafWrite
  simp only [wireOf]
  simp
  intro hlt
  exact absurd hlt (by decide)

theorem applyLeafWrite_extd (q : CpuPolicy) (l : Nat) (hl : l < CPUID_GUEST_NR_EXTD)
    (s : Nat) (r : CpuidLeafRegs) :
    applyLeafWrite q (wireOf (2147483648 + l) s r) =
      { q with extdRaw := famSet q.extdRaw l r } := by
  unfold applyLeafWrite
  simp only [wireOf]
  have c14 : (CPUID_GUEST_NR_BASIC : Nat) = 14 := rfl
  have c34 : (CPUID_GUEST_NR_EXTD : Nat) = 34 := rfl
  rw [if_neg (by omega), if_neg (by omega), if_neg (by omega), if_pos ⟨by omega, by omega⟩]
  have hmask : (2147483648 + l) &&& 65535 = l := by
    have h1 : (65535 : Nat) = 2 ^ 16 - 1 := by norm_num
    rw [h1, Nat.and_pow_two_sub_one_eq_mod]
    have h2 : 2147483648 + l = 2 ^ 16 * 32768 + l := by norm_num
    rw [h2, Nat.mul_add_mod]
    exact Nat.mod_eq_of_lt (by omega)
  rw [hmask]

theorem foldl_cache_block (p q : CpuPolicy) (k : Nat) (hk : k ≤ CPUID_GUEST_NR_CACHE) :
    List.foldl applyLeafWrite q
      ((List.range k).map (fun s => wireOf 4 s (famGet p.cacheRaw s))) =
      { q with cacheRaw := fun j => if j.val < k then p.cacheRaw j else q.cacheRaw j } := by
  induction k with
  | zero =>
    simp only [List.range_zero, List.map_nil, List.foldl_nil]
    have hfun : (fun j : Fin CPUID_GUEST_NR_CACHE =>
        if j.val < 0 then p.cacheRaw j else q.cacheRaw j) = q.cacheRaw := by
      funext j
      simp
    rw [hfun]
  | succ k ih =>
    rw [List.range_succ, List.map_append, List.foldl_append, ih (by omega)]
    simp only [List.map_cons, List.map_nil, List.foldl_cons, List.foldl_nil]
    rw [applyLeafWrite_cache]
    apply CpuPolicy.ext <;> try rfl
    funext j
    simp only [famSet]
    by_cases hj : j.val = k
    · have hk6 : k < CPUID_GUEST_NR_CACHE := by omega
      rw [if_pos hj, if_pos (by omega), famGet_lt p.cacheRaw k hk6]
      have hjf : j = ⟨k, hk6⟩ := Fin.ext hj
      rw [hjf]
    · rw [if_neg hj]
      by_cases hjk : j.val < k
      · rw [if_pos hjk, if_pos (by omega)]
      · rw [if_neg hjk, if_neg (by omega)]

theorem foldl_feat_block (p q : CpuPolicy) (k : Nat) (hk : k ≤ CPUID_GUEST_NR_FEAT) :
    List.foldl applyLeafWrite q
      ((List.range k).map (fun s => wireOf 7 s (famGet p.featRaw s))) =
      { q with featRaw := fun j => if j.val < k then p.featRaw j else q.featRaw j } := by
  induction k with
  | zero =>
    simp only [List.range_zero, List.map_nil, List.foldl_nil]
    have hfun : (fun j : Fin CPUID_GUEST_NR_FEAT =>
        if j.val < 0 then p.featRaw j else q.featRaw j) = q.featRaw := by
      funext j
      simp
    rw [hfun]
  | succ k ih =>
    rw [List.range_succ, List.map_append, List.foldl_append, ih (by omega)]
    simp only [List.map_cons, List.map_nil, List.foldl_cons, List.foldl_nil]
    rw [applyLeafWrite_feat]
    apply CpuPolicy.ext <;> try rfl
    funext j
    simp only [famSet]
    by_cases hj : j.val = k
    · have hk3 : k < CPUID_GUEST_NR_FEAT := by omega
      rw [if_pos hj, if_pos (by omega), famGet_lt p.featRaw k hk3]
      have hjf : j = ⟨k, hk3⟩ := Fin.ext hj
      rw [hjf]
    · rw [if_neg hj]
      by_cases hjk : j.val < k
      · rw [if_pos hjk, if_pos (by omega)]
      · rw [if_neg hjk, if_neg (by omega)]

theorem foldl_topo_block (p q : CpuPolicy) (k : Nat) (hk : k ≤ CPUID_GUEST_NR_TOPO) :
    List.foldl applyLeafWrite q
      ((List.range k).map (fun s => wireOf 11 s (famGet p.topoRaw s))) =
      { q with topoRaw := fun j => if j.val < k then p.topoRaw j else q.topoRaw j } := by
  induction k with
  | zero =>
    simp only [List.range_zero, List.map_nil, List.foldl_nil]
    have hfun : (fun j : Fin CPUID_GUEST_NR_TOPO =>
        if j.val < 0 then p.topoRaw j else q.topoRaw j) = q.topoRaw := by
      funext j
      simp
    rw [hfun]
  | succ k ih =>
    rw [List.range_succ, List.map_append, List.foldl_append, ih (by omega)]
    simp only [List.map_cons, List.map_nil, List.foldl_cons, List.foldl_nil]
    rw [applyLeafWrite_topo]
    apply CpuPolicy.ext <;> try rfl
    funext j
    simp only [famSet]
    by_cases hj : j.val = k
    · have hk2 : k < CPUID_GUEST_NR_TOPO := by omega
      rw [if_pos hj, if_pos (by omega), famGet_lt p.topoRaw k hk2]
      have hjf : j = ⟨k, hk2⟩ := Fin.ext hj
      rw [hjf]
    · rw [if_neg hj]
      by_cases hjk : j.val < k
      · rw [if_pos hjk, if_pos (by omega)]
      · rw [if_neg hjk, if_neg (by omega)]

theorem foldl_xstate_block (p q : CpuPolicy) (k : Nat) (hk : k ≤ CPUID_GUEST_NR_XSTATE) :
    List.foldl applyLeafWrite q
      ((List.range k).map (fun s => wireOf 13 s (famGet p.xstateRaw s))) =
      { q with xstateRaw := fun j => if j.val < k then p.xstateRaw j else q.xstateRaw j } := by
  induction k with
  | zero =>
    simp only [List.range_zero, List.map_nil, List.foldl_nil]
    have hfun : (fun j : Fin CPUID_GUEST_NR_XSTATE =>
        if j.val < 0 then p.xstateRaw j else q.xstateRaw j) = q.xstateRaw := by
      funext j
      simp
    rw [hfun]
  | succ k ih =>
    rw [List.range_succ, List.map_append, List.foldl_append, ih (by omega)]
    simp only [List.map_cons, List.map_nil, List.foldl_cons, List.foldl_nil]
    rw [applyLeafWrite_xstate]
    apply CpuPolicy.ext <;> try rfl
    funext j
    simp only [famSet]
    by_cases hj : j.val = k
    · have hk63 : k < CPUID_GUEST_NR_XSTATE := by omega
      rw [if_pos hj, if_pos (by omega), famGet_lt p.xstateRaw k hk63]
      have hjf : j = ⟨k, hk63⟩ := Fin.ext hj
      rw [hjf]
    · rw [if_neg hj]
      by_cases hjk : j.val < k
      · rw [if_pos hjk, if_pos (by omega)]
      · rw [if_neg hjk, if_neg (by omega)]

theorem foldl_extd_block (p q : CpuPolicy) (k : Nat) (hk : k ≤ CPUID_GUEST_NR_EXTD) :
    List.foldl applyLeafWrite q
      ((List.range k).map
        (fun l => wireOf (2147483648 + l) XEN_CPUID_NO_SUBLEAF (famGet p.extdRaw l))) =
      { q with extdRaw := fun j => if j.val < k then p.extdRaw j else q.extdRaw j } := by
  induction k with
  | zero =>
    simp only [List.range_zero, List.map_nil, List.foldl_nil]
    have hfun : (fun j : Fin CPUID_GUEST_NR_EXTD =>
        if j.val < 0 then p.extdRaw j else q.extdRaw j) = q.extdRaw := by
      funext j
      simp
    rw [hfun]
  | succ k ih =>
    rw [List.range_succ, List.map_append, List.foldl_append, ih (by omega)]
    simp only [List.map_cons, List.map_nil, List.foldl_cons, List.foldl_nil]
    rw [applyLeafWrite_extd _ k (by omega)]
    apply CpuPolicy.ext <;> try rfl
    funext j
    simp only [famSet]
    by_cases hj : j.val = k
    · have hk34 : k < CPUID_GUEST_NR_EXTD := by omega
      rw [if_pos hj, if_pos (by omega), famGet_lt p.extdRaw k hk34]
      have hjf : j = ⟨k, hk34⟩ := Fin.ext hj
      rw [hjf]
    · rw [if_neg hj]
      by_cases hjk : j.val < k
      · rw [if_pos hjk, if_pos (by omega)]
      · rw [if_neg hjk, if_neg (by omega)]

/-- Intermediate description of the destination record after the commit
pass has processed the serialised blocks of basic leaves 0 .. m-1 into
an all-zero destination. -/
def deserialisedState (p : CpuPolicy) (m : Nat) : CpuPolicy :=
  { zeroPolicy with
    basicRaw := fun j =>
      if j.val < m ∧ j.val ≠ 4 ∧ j.val ≠ 7 ∧ j.val ≠ 11 ∧ j.val ≠ 13 then p.basicRaw j
      else zeroRegs,
    cacheRaw := fun j => if 4 < m ∧ j.val < cacheNr p then p.cacheRaw j else zeroRegs,
    featRaw := fun j => if 7 < m ∧ j.val < featNr p then p.featRaw j else zeroRegs,
    topoRaw := fun j => if 11 < m ∧ j.val < topoNr p then p.topoRaw j else zeroRegs,
    xstateRaw := fun j => if 13 < m ∧ j.val < xstateNr p then p.xstateRaw j else zeroRegs }

theorem foldl_basic_range (p : CpuPolicy) (m : Nat) (hm : m ≤ 14) :
    List.foldl applyLeafWrite zeroPolicy ((List.range m).flatMap (basicBlock p)) =
      deserialisedState p m := by
  induction m with
  | zero =>
    simp only [List.range_zero, List.flatMap_nil, List.foldl_nil]
    apply CpuPolicy.ext <;> rfl
  | succ m ih =>
    rw [List.range_succ, List.flatMap_append, List.foldl_append, ih (by omega)]
    simp only [List.flatMap_cons, List.flatMap_nil, List.append_nil]
    unfold basicBlock
    by_cases h4 : m = 4
    · subst h4
      rw [if_pos rfl, foldl_cache_block p _ (cacheNr p) (cacheNr_le p)]
      apply CpuPolicy.ext <;>
        first
          | rfl
          | (funext j; simp only [deserialisedState];
             split_ifs <;> first | rfl | omega)
    · rw [if_neg h4]
      by_cases h7 : m = 7
      · subst h7
        rw [if_pos rfl, foldl_feat_block p _ (featNr p) (featNr_le p)]
        apply CpuPolicy.ext <;>
          first
            | rfl
            | (funext j; simp only [deserialisedState];
               split_ifs <;> first | rfl | omega)
      · rw [if_neg h7]
        by_cases h11 : m = 11
        · subst h11
          rw [if_pos rfl, foldl_topo_block p _ (topoNr p) (topoNr_le p)]
          apply CpuPolicy.ext <;>
            first
              | rfl
              | (funext j; simp only [deserialisedState];
                 split_ifs <;> first | rfl | omega)
        · rw [if_neg h11]
          by_cases h13 : m = 13
          · subst h13
            rw [if_pos rfl, foldl_xstate_block p _ (xstateNr p) (xstateNr_le p)]
            apply CpuPolicy.ext <;>
              first
                | rfl
                | (funext j; simp only [deserialisedState];
                   split_ifs <;> first | rfl | omega)
          · rw [if_neg h13]
            simp only [List.foldl_cons, List.foldl_nil]
            have hm14 : m < CPUID_GUEST_NR_BASIC := by
              have c14 : (CPUID_GUEST_NR_BASIC : Nat) = 14 := rfl
              omega
            rw [applyLeafWrite_default _ m hm14 h4 h7 h11 h13]
            apply CpuPolicy.ext
            · funext j
              simp only [deserialisedState, famSet]
              by_cases hj : j.val = m
              · rw [if_pos hj, if_pos (by omega), famGet_lt p.basicRaw m hm14]
                have hjf : j = ⟨m, hm14⟩ := Fin.ext hj
                rw [hjf]
              · rw [if_neg hj]
                split_ifs <;> first | rfl | omega
            all_goals
              first
                | rfl
                | (funext j; simp only [deserialisedState];
                   split_ifs <;> first | rfl | omega)

theorem foldl_serialise (p : CpuPolicy) :
    List.foldl applyLeafWrite zeroPolicy (serialiseLeaves p) =
      { deserialisedState p (basicNrLeaves p) with
        hv_limit := p.hv_limit,
        hv2_limit := p.hv2_limit,
        extdRaw := fun j => if j.val < extdNrLeaves p then p.extdRaw j else zeroRegs } := by
  unfold serialiseLeaves
  rw [List.foldl_append, List.foldl_append,
    foldl_basic_range p (basicNrLeaves p) (basicNrLeaves_le p)]
  rw [List.foldl_cons, List.foldl_cons, List.foldl_nil]
  rw [applyLeafWrite_hv1, applyLeafWrite_hv2,
    foldl_extd_block p _ (extdNrLeaves p) (extdNrLeaves_le p)]
  apply CpuPolicy.ext
  · rfl
  · rfl
  · rfl
  · rfl
  · rfl
  · funext j
    show (if j.val < extdNrLeaves p then p.extdRaw j else (deserialisedState p (basicNrLeaves p)).extdRaw j) =
      (if j.val < extdNrLeaves p then p.extdRaw j else zeroRegs)
    rfl
  · rfl
  · rfl
  · rfl
  · rfl

/-- C4: for every clean Policy Record p (one the range sanitizer leaves
unchanged), deserialising the wire sequence produced by serialising p
into an all-zero destination succeeds and reproduces every populated
CPUID field of p exactly: all basic leaves other than the four
subleaved slots (whose data lives in the dedicated family arrays), the
complete cache/feat/topo/xstate/extd family arrays, and both hypervisor
limit leaves. -/
theorem cpuid_serialise_roundtrip (p : CpuPolicy)
    (hclean : x86_cpu_policy_clear_out_of_range_leaves p = p) :
    ∃ q : CpuPolicy,
      x86_cpuid_copy_from_buffer (some zeroPolicy) (serialiseLeaves p) =
        ⟨0, XEN_CPUID_NO_SUBLEAF, XEN_CPUID_NO_SUBLEAF, some q⟩ ∧
      (∀ i : Fin CPUID_GUEST_NR_BASIC,
        i.val ≠ 4 → i.val ≠ 7 → i.val ≠ 11 → i.val ≠ 13 → q.basicRaw i = p.basicRaw i) ∧
      q.cacheRaw = p.cacheRaw ∧ q.featRaw = p.featRaw ∧ q.topoRaw = p.topoRaw ∧
      q.xstateRaw = p.xstateRaw ∧ q.extdRaw = p.extdRaw ∧
      q.hv_limit = p.hv_limit ∧ q.hv2_limit = p.hv2_limit := by
  have c14 : (CPUID_GUEST_NR_BASIC : Nat) = 14 := rfl
  have c6 : (CPUID_GUEST_NR_CACHE : Nat) = 6 := rfl
  have c3 : (CPUID_GUEST_NR_FEAT : Nat) = 3 := rfl
  have c2 : (CPUID_GUEST_NR_TOPO : Nat) = 2 := rfl
  have c63 : (CPUID_GUEST_NR_XSTATE : Nat) = 63 := rfl
  have c34 : (CPUID_GUEST_NR_EXTD : Nat) = 34 := rfl
  have hbnl : basicNrLeaves p = min (basic_max_leaf p) 13 + 1 := rfl
  have hcn : cacheNr p = min (firstZero (cacheType p) CPUID_GUEST_NR_CACHE + 1) 6 := rfl
  have hfn : featNr p = min (feat_max_subleaf p) 2 + 1 := rfl
  have htn : topoNr p = min (firstZero (topoType p) CPUID_GUEST_NR_TOPO + 1) 2 := rfl
  have hxn : xstateNr p = min (max 2 (bitlen (xstates p))) 63 := rfl
  have hen : extdNrLeaves p = min (extd_max_leaf p &&& 65535) 33 + 1 := rfl
  have hbasic : ∀ j : Fin CPUID_GUEST_NR_BASIC, basic_max_leaf p < j.val →
      p.basicRaw j = zeroRegs := by
    intro j hj
    have h := congrFun (congrArg CpuPolicy.basicRaw hclean) j
    rw [clear_basicRaw, zeroFrom_apply, if_pos (by omega)] at h
    exact h.symm
  have hcache_all : basic_max_leaf p < 4 →
      ∀ j : Fin CPUID_GUEST_NR_CACHE, p.cacheRaw j = zeroRegs := by
    intro hlt j
    have h := congrFun (congrArg CpuPolicy.cacheRaw hclean) j
    rw [clear_cacheRaw, if_pos hlt, zeroFrom_apply, if_pos (Nat.zero_le _)] at h
    exact h.symm
  have hcache_hi : ¬ basic_max_leaf p < 4 → ∀ j : Fin CPUID_GUEST_NR_CACHE,
      firstZero (cacheType p) CPUID_GUEST_NR_CACHE ≤ j.val → p.cacheRaw j = zeroRegs := by
    intro hge j hj
    have h := congrFun (congrArg CpuPolicy.cacheRaw hclean) j
    rw [clear_cacheRaw, if_neg hge, zeroFrom_apply, if_pos hj] at h
    exact h.symm
  have hfeat_all : basic_max_leaf p < 7 →
      ∀ j : Fin CPUID_GUEST_NR_FEAT, p.featRaw j = zeroRegs := by
    intro hlt j
    have h := congrFun (congrArg CpuPolicy.featRaw hclean) j
    rw [clear_featRaw, if_pos hlt, zeroFrom_apply, if_pos (Nat.zero_le _)] at h
    exact h.symm
  have hfeat_hi : ¬ basic_max_leaf p < 7 → ∀ j : Fin CPUID_GUEST_NR_FEAT,
      feat_max_subleaf p < j.val → p.featRaw j = zeroRegs := by
    intro hge j hj
    have h := congrFun (congrArg CpuPolicy.featRaw hclean) j
    rw [clear_featRaw, if_neg hge, zeroFrom_apply, if_pos (by omega)] at h
    exact h.symm
  have htopo_all : basic_max_leaf p < 11 →
      ∀ j : Fin CPUID_GUEST_NR_TOPO, p.topoRaw j = zeroRegs := by
    intro hlt j
    have h := congrFun (congrArg CpuPolicy.topoRaw hclean) j
    rw [clear_topoRaw, if_pos hlt, zeroFrom_apply, if_pos (Nat.zero_le _)] at h
    exact h.symm
  have htopo_hi : ¬ basic_max_leaf p < 11 → ∀ j : Fin CPUID_GUEST_NR_TOPO,
      firstZero (topoType p) CPUID_GUEST_NR_TOPO ≤ j.val → p.topoRaw j = zeroRegs := by
    intro hge j hj
    have h := congrFun (congrArg CpuPolicy.topoRaw hclean) j
    rw [clear_topoRaw, if_neg hge, zeroFrom_apply, if_pos hj] at h
    exact h.symm
  have hxs_all : basic_max_leaf p < 13 →
      ∀ j : Fin CPUID_GUEST_NR_XSTATE, p.xstateRaw j = zeroRegs := by
    intro hlt j
    have h := congrFun (congrArg CpuPolicy.xstateRaw hclean) j
    rw [clear_xstateRaw_apply, if_pos hlt] at h
    exact h.symm
  have hxs_hi : ¬ basic_max_leaf p < 13 → ∀ j : Fin CPUID_GUEST_NR_XSTATE,
      ¬(j.val < 2 ∨ Nat.testBit (xstates p) j.val) → p.xstateRaw j = zeroRegs := by
    intro hge j hj
    have h := congrFun (congrArg CpuPolicy.xstateRaw hclean) j
    rw [clear_xstateRaw_apply, if_neg hge, if_neg hj] at h
    exact h.symm
  have hextd : ∀ j : Fin CPUID_GUEST_NR_EXTD, (extd_max_leaf p &&& 65535) < j.val →
      p.extdRaw j = zeroRegs := by
    intro j hj
    have h := congrFun (congrArg CpuPolicy.extdRaw hclean) j
    rw [clear_extdRaw, zeroFrom_apply, if_pos (by omega)] at h
    exact h.symm
  refine ⟨List.foldl applyLeafWrite zeroPolicy (serialiseLeaves p),
    ?_, ?_, ?_, ?_, ?_, ?_, ?_, ?_, ?_⟩
  · unfold x86_cpuid_copy_from_buffer
    rw [findBadLeaf_none_of_valid _ (serialise_valid p)]
    rfl
  · intro i h4 h7 h11 h13
    rw [foldl_serialise p]
    show (if i.val < basicNrLeaves p ∧ i.val ≠ 4 ∧ i.val ≠ 7 ∧ i.val ≠ 11 ∧ i.val ≠ 13
          then p.basicRaw i else zeroRegs) = p.basicRaw i
    by_cases hc : i.val < basicNrLeaves p
    · rw [if_pos ⟨hc, h4, h7, h11, h13⟩]
    · rw [if_neg (fun hcon => hc hcon.1)]
      have hi := i.isLt
      refine (hbasic i ?_).symm
      clear hclean hbasic hcache_all hcache_hi hfeat_all hfeat_hi htopo_all htopo_hi
        hxs_all hxs_hi hextd
      omega
  · rw [foldl_serialise p]
    funext j
    show (if 4 < basicNrLeaves p ∧ j.val < cacheNr p then p.cacheRaw j else zeroRegs) =
      p.cacheRaw j
    have hj6 := j.isLt
    by_cases hm4 : 4 < basicNrLeaves p
    · by_cases hj : j.val < cacheNr p
      · rw [if_pos ⟨hm4, hj⟩]
      · rw [if_neg (fun hcon => hj hcon.2)]
        refine (hcache_hi ?_ j ?_).symm
        · clear hclean hbasic hcache_all hcache_hi hfeat_all hfeat_hi htopo_all htopo_hi
            hxs_all hxs_hi hextd
          omega
        · clear hclean hbasic hcache_all hcache_hi hfeat_all hfeat_hi htopo_all htopo_hi
            hxs_all hxs_hi hextd
          omega
    · rw [if_neg (fun hcon => hm4 hcon.1)]
      refine (hcache_all ?_ j).symm
      clear hclean hbasic hcache_all hcache_hi hfeat_all hfeat_hi htopo_all htopo_hi
        hxs_all hxs_hi hextd
      omega
  · rw [foldl_serialise p]
    funext j
    show (if 7 < basicNrLeaves p ∧ j.val < featNr p then p.featRaw j else zeroRegs) =
      p.featRaw j
    have hj3 := j.isLt
    by_cases hm7 : 7 < basicNrLeaves p
    · by_cases hj : j.val < featNr p
      · rw [if_pos ⟨hm7, hj⟩]
      · rw [if_neg (fun hcon => hj hcon.2)]
        refine (hfeat_hi ?_ j ?_).symm
        · clear hclean hbasic hcache_all hcache_hi hfeat_all hfeat_hi htopo_all htopo_hi
            hxs_all hxs_hi hextd
          omega
        · clear hclean hbasic hcache_all hcache_hi hfeat_all hfeat_hi htopo_all htopo_hi
            hxs_all hxs_hi hextd
          omega
    · rw [if_neg (fun hcon => hm7 hcon.1)]
      refine (hfeat_all ?_ j).symm
      clear hclean hbasic hcache_all hcache_hi hfeat_all hfeat_hi htopo_all htopo_hi
        hxs_all hxs_hi hextd
      omega
  · rw [foldl_serialise p]
    funext j
    show (if 11 < basicNrLeaves p ∧ j.val < topoNr p then p.topoRaw j else zeroRegs) =
      p.topoRaw j
    have hj2 := j.isLt
    by_cases hm11 : 11 < basicNrLeaves p
    · by_cases hj : j.val < topoNr p
      · rw [if_pos ⟨hm11, hj⟩]
      · rw [if_neg (fun hcon => hj hcon.2)]
        refine (htopo_hi ?_ j ?_).symm
        · clear hclean hbasic hcache_all hcache_hi hfeat_all hfeat_hi htopo_all htopo_hi
            hxs_all hxs_hi hextd
          omega
        · clear hclean hbasic hcache_all hcache_hi hfeat_all hfeat_hi htopo_all htopo_hi
            hxs_all hxs_hi hextd
          omega
    · rw [if_neg (fun hcon => hm11 hcon.1)]
      refine (htopo_all ?_ j).symm
      clear hclean hbasic hcache_all hcache_hi hfeat_all hfeat_hi htopo_all htopo_hi
        hxs_all hxs_hi hextd
      omega
  · rw [foldl_serialise p]
    funext j
    show (if 13 < basicNrLeaves p ∧ j.val < xstateNr p then p.xstateRaw j else zeroRegs) =
      p.xstateRaw j
    have hj63 := j.isLt
    by_cases hm13 : 13 < basicNrLeaves p
    · by_cases hj : j.val < xstateNr p
      · rw [if_pos ⟨hm13, hj⟩]
      · rw [if_neg (fun hcon => hj hcon.2)]
        refine (hxs_hi ?_ j ?_).symm
        · clear hclean hbasic hcache_all hcache_hi hfeat_all hfeat_hi htopo_all htopo_hi
            hxs_all hxs_hi hextd
          omega
        · rintro (hlt | hbit)
          · clear hclean hbasic hcache_all hcache_hi hfeat_all hfeat_hi htopo_all htopo_hi
              hxs_all hxs_hi hextd
            omega
          · have hb := testBit_lt_bitlen (xstates p) j.val hbit
            clear hclean hbasic hcache_all hcache_hi hfeat_all hfeat_hi htopo_all htopo_hi
              hxs_all hxs_hi hextd hbit
            omega
    · rw [if_neg (fun hcon => hm13 hcon.1)]
      refine (hxs_all ?_ j).symm
      clear hclean hbasic hcache_all hcache_hi hfeat_all hfeat_hi htopo_all htopo_hi
        hxs_all hxs_hi hextd
      omega
  · rw [foldl_serialise p]
    funext j
    show (if j.val < extdNrLeaves p then p.extdRaw j else zeroRegs) = p.extdRaw j
    have hj34 := j.isLt
    by_cases hj : j.val < extdNrLeaves p
    · rw [if_pos hj]
    · rw [if_neg hj]
      refine (hextd j ?_).symm
      clear hclean hbasic hcache_all hcache_hi hfeat_all hfeat_hi htopo_all htopo_hi
        hxs_all hxs_hi hextd
      omega
  · rw [foldl_serialise p]
  · rw [foldl_serialise p]

/-- C4 witness: the partial-leaf-4 record is clean, and the round trip
through an all-zero destination reproduces its populated fields. -/
theorem cpuid_serialise_roundtrip_witness :
    x86_cpu_policy_clear_out_of_range_leaves leaf4Policy = leaf4Policy ∧
    (∃ q : CpuPolicy,
      x86_cpuid_copy_from_buffer (some zeroPolicy) (serialiseLeaves leaf4Policy) =
        ⟨0, XEN_CPUID_NO_SUBLEAF, XEN_CPUID_NO_SUBLEAF, some q⟩ ∧
      (∀ i : Fin CPUID_GUEST_NR_BASIC,
        i.val ≠ 4 → i.val ≠ 7 → i.val ≠ 11 → i.val ≠ 13 →
          q.basicRaw i = leaf4Policy.basicRaw i) ∧
      q.cacheRaw = leaf4Policy.cacheRaw ∧
      q.featRaw = leaf4Policy.featRaw ∧
      q.topoRaw = leaf4Policy.topoRaw ∧
      q.xstateRaw = leaf4Policy.xstateRaw ∧
      q.extdRaw = leaf4Policy.extdRaw ∧
      q.hv_limit = leaf4Policy.hv_limit ∧
      q.hv2_limit = leaf4Policy.hv2_limit) :=
  ⟨by decide, cpuid_serialise_roundtrip leaf4Policy (by decide)⟩
